import Mathlib

/-!
Shallow embedding of the gymruntohevy converter (src/convert.py and
src/exercises.py) and verification of its specification claims.

The pipeline of `convert_gymrun_to_strong` is modelled stage by stage over an
explicit dataframe type `DF` (a column-name list plus rows of association
lists of cell values).  Timestamps are modelled as seconds (proleptic
Gregorian calendar), float64 cell values as exact decimal numbers, and the
pandas/pytz operations used by the source are translated operation by
operation.
-/

set_option maxRecDepth 10000

namespace Gymrun

/-! ### Calendar arithmetic

Standard civil-calendar conversions (days-from-civil and its inverse),
used to model `pandas.to_datetime`, `strftime` and the Europe/Oslo
daylight-saving rule. -/

def isLeap (y : Nat) : Bool :=
  (y % 4 == 0 && y % 100 != 0) || (y % 400 == 0)

def daysInMonth (y m : Nat) : Nat :=
  if m = 2 then (if isLeap y then 29 else 28)
  else if m = 4 ∨ m = 6 ∨ m = 9 ∨ m = 11 then 30
  else 31

/-- Days since 0000-03-01 of the civil date `y-m-d` (valid for `1 ≤ y`). -/
def daysFromCivil (y m d : Nat) : Nat :=
  let y2 := if m ≤ 2 then y - 1 else y
  let era := y2 / 400
  let yoe := y2 % 400
  let doy := (153 * (if 2 < m then m - 3 else m + 9) + 2) / 5 + d - 1
  let doe := yoe * 365 + yoe / 4 - yoe / 100 + doy
  era * 146097 + doe

/-- Civil date `(y, m, d)` of a day count (inverse of `daysFromCivil`). -/
def civilFromDays (z : Nat) : Nat × Nat × Nat :=
  let era := z / 146097
  let doe := z % 146097
  let yoe := (doe - doe / 1460 + doe / 36524 - doe / 146096) / 365
  let y := yoe + era * 400
  let doy := doe - (365 * yoe + yoe / 4 - yoe / 100)
  let mp := (5 * doy + 2) / 153
  let d := doy - (153 * mp + 2) / 5 + 1
  let m := if mp < 10 then mp + 3 else mp - 9
  (if m ≤ 2 then y + 1 else y, m, d)

/-- Day 0 (0000-03-01) is a Wednesday; Sunday is residue 4 mod 7.
The day-of-month of the last Sunday of month `m` of year `y`. -/
def lastSundayDay (y m : Nat) : Nat :=
  let L := daysInMonth y m
  L - (daysFromCivil y m L + 3) % 7

def pad2 (n : Nat) : String :=
  if n < 10 then "0" ++ toString n else toString n

def pad4 (n : Nat) : String :=
  if n < 10 then "000" ++ toString n
  else if n < 100 then "00" ++ toString n
  else if n < 1000 then "0" ++ toString n
  else toString n

/-- `strftime('%Y-%m-%d %H:%M:%S')` on a UTC timestamp given in seconds. -/
def formatUTC (t : Nat) : String :=
  let c := civilFromDays (t / 86400)
  let rem := t % 86400
  pad4 c.1 ++ "-" ++ pad2 c.2.1 ++ "-" ++ pad2 c.2.2 ++ " " ++
    pad2 (rem / 3600) ++ ":" ++ pad2 (rem % 3600 / 60) ++ ":" ++ pad2 (rem % 60)

/-! ### Europe/Oslo localization

Models `pytz.timezone('Europe/Oslo').localize(dt, is_dst=None)`.  The
timezone database rules are external data; they are modelled here by the
current European Union daylight-saving rule (in force since 1996, CET =
UTC+1 in winter, CEST = UTC+2 from the last Sunday of March 02:00 local to
the last Sunday of October 03:00 local), applied uniformly to all years. -/

inductive Tz where
  | winter
  | summer
  | ambiguous
  | nonexistent
deriving DecidableEq, Repr

def Tz.isBoundary : Tz → Bool
  | .ambiguous => true
  | .nonexistent => true
  | _ => false

/-- Classify a naive local timestamp (seconds): the skipped spring-forward
hour is nonexistent, the repeated fall-back hour is ambiguous. -/
def osloClass (t : Nat) : Tz :=
  let y := (civilFromDays (t / 86400)).1
  let marS := 86400 * daysFromCivil y 3 (lastSundayDay y 3) + 7200
  let octS := 86400 * daysFromCivil y 10 (lastSundayDay y 10) + 7200
  if t < marS then .winter
  else if t < marS + 3600 then .nonexistent
  else if t < octS then .summer
  else if t < octS + 3600 then .ambiguous
  else .winter

/-- UTC seconds of a successfully localized naive local timestamp
(only meaningful off the DST boundaries, where `localize` does not raise). -/
def osloUtc (t : Nat) : Nat :=
  if osloClass t = .summer then t - 7200 else t - 3600

/-! ### Timestamp parsing

Models `pd.to_datetime(..., format='%d.%m.%Y %H:%M:%S', errors='coerce')`:
day/month/hour/minute/second take one or two digits, the year up to four,
the calendar must be valid, and out-of-range years (outside the
`pandas.Timestamp` span, approximated by 1678..2261) coerce to NaT. -/

def splitChar (sep : Char) : List Char → List (List Char)
  | [] => [[]]
  | c :: cs =>
    let r := splitChar sep cs
    if c = sep then [] :: r
    else
      match r with
      | [] => [[c]]
      | h :: t => (c :: h) :: t

def digitsToNat (l : List Char) : Nat :=
  l.foldl (fun a c => a * 10 + (c.toNat - 48)) 0

def parseDigits (l : List Char) : Option Nat :=
  if l ≠ [] ∧ l.all Char.isDigit then some (digitsToNat l) else none

def parseDigitsLen (l : List Char) (maxLen : Nat) : Option Nat :=
  if l.length ≤ maxLen then parseDigits l else none

def parseTS (s : String) : Option Nat :=
  match splitChar ' ' s.data with
  | [ds, ts] =>
    match splitChar '.' ds, splitChar ':' ts with
    | [d, mo, y], [h, mi, se] =>
      match parseDigitsLen d 2, parseDigitsLen mo 2, parseDigitsLen y 4,
          parseDigitsLen h 2, parseDigitsLen mi 2, parseDigitsLen se 2 with
      | some dv, some mov, some yv, some hv, some miv, some sev =>
        if 1678 ≤ yv ∧ yv ≤ 2261 ∧ 1 ≤ mov ∧ mov ≤ 12 ∧
            1 ≤ dv ∧ dv ≤ daysInMonth yv mov ∧ hv ≤ 23 ∧ miv ≤ 59 ∧ sev ≤ 59 then
          some (86400 * daysFromCivil yv mov dv + 3600 * hv + 60 * miv + sev)
        else none
      | _, _, _, _, _, _ => none
    | _, _ => none
  | _ => none

/-! ### Exact decimal numbers

Cell values of float64 dtype are modelled as exact decimal numbers
`mant / 10 ^ exp`, kept in a canonical form (trailing decimal zeros
stripped) so that structural equality is value equality. -/

structure Dec where
  mant : Int
  exp : Nat
deriving DecidableEq, Repr

def decNorm : Int → Nat → Dec
  | m, 0 => ⟨m, 0⟩
  | m, e + 1 => if m % 10 = 0 then decNorm (m / 10) e else ⟨m, e + 1⟩

def decOfInt (n : Int) : Dec := ⟨n, 0⟩

def decMulNat (d : Dec) (n : Nat) : Dec := decNorm (d.mant * n) d.exp

/-- Truncation toward zero, as `numpy.astype(int)` on a float. -/
def decTrunc (d : Dec) : Int := d.mant.tdiv ((10 : Int) ^ d.exp)

def decPos (d : Dec) : Bool := decide (0 < d.mant)

/-- Decimal literal parsing, as `pd.to_numeric(errors='coerce')` /
`float()` on a string: optional sign, digits with an optional decimal
point (scientific notation and surrounding whitespace are not modelled). -/
def parseDecChars (l : List Char) : Option Dec :=
  match splitChar '.' l with
  | [ip] => (parseDigits ip).map (fun n => decNorm n 0)
  | [ip, fp] =>
    if ip.isEmpty && fp.isEmpty then none
    else if ip.all Char.isDigit && fp.all Char.isDigit then
      some (decNorm ((digitsToNat ip) * 10 ^ fp.length + digitsToNat fp) fp.length)
    else none
  | _ => none

def parseNumber (s : String) : Option Dec :=
  match s.data with
  | '-' :: rest => (parseDecChars rest).map (fun d => ⟨-d.mant, d.exp⟩)
  | '+' :: rest => parseDecChars rest
  | l => parseDecChars l

/-- `int()` on a string, as used by `astype(int)` on text cells. -/
def parseIntStr (s : String) : Option Int :=
  match s.data with
  | '-' :: rest => (parseDigits rest).map (fun n => -(n : Int))
  | '+' :: rest => (parseDigits rest).map (fun n => (n : Int))
  | l => (parseDigits l).map (fun n => (n : Int))

/-- Python-style decimal rendering of a float value (`str(2500.0) = "2500.0"`,
`str(2.5) = "2.5"`; the exponent notation Python uses for very small or very
large magnitudes is not modelled). -/
def decRender (d : Dec) : String :=
  let sign := if d.mant < 0 then "-" else ""
  let a := toString d.mant.natAbs
  if d.exp = 0 then sign ++ a ++ ".0"
  else
    let ds := if a.length ≤ d.exp then List.replicate (d.exp + 1 - a.length) '0' ++ a.data else a.data
    sign ++ String.mk (ds.take (ds.length - d.exp)) ++ "." ++ String.mk (ds.drop (ds.length - d.exp))

/-! ### Cell values and dataframes -/

inductive Value where
  | str (s : String)
  | int (n : Int)
  | float (d : Dec)
  | nan
deriving DecidableEq, Repr

def Value.isna : Value → Bool
  | .nan => true
  | _ => false

/-- Python `str()` coercion of a cell value (`astype(str)` maps NaN to
the text "nan"). -/
def pyStr : Value → String
  | .str s => s
  | .int n => toString n
  | .float d => decRender d
  | .nan => "nan"

/-- `pd.to_numeric(errors='coerce')` on one cell: numeric values pass
through, numeric text parses, everything else coerces to NaN (`none`). -/
def toNumeric : Value → Option Dec
  | .str s => parseNumber s
  | .int n => some (decOfInt n)
  | .float d => some d
  | .nan => none

/-- A dataframe row: cells keyed by column name.  A key absent from the
row reads as NaN. -/
abbrev Row := List (String × Value)

def cellV (r : Row) (c : String) : Value :=
  ((r.find? (fun p => p.1 == c)).map Prod.snd).getD Value.nan

def setV (r : Row) (c : String) (v : Value) : Row :=
  (r.filter (fun p => p.1 != c)) ++ [(c, v)]

structure DF where
  cols : List String
  rows : List Row
deriving DecidableEq, Repr

/-- Column assignment `df[c] = ...`: a new column is appended at the end
of the column order; every row receives the computed cell. -/
def DF.setCol (df : DF) (c : String) (f : Row → Value) : DF :=
  { cols := if df.cols.contains c then df.cols else df.cols ++ [c],
    rows := df.rows.map (fun r => setV r c (f r)) }

/-- Column selection `df[hs]` (`hs` the target header list). -/
def DF.select (df : DF) (hs : List String) : DF :=
  { cols := hs, rows := df.rows.map (fun r => hs.map (fun c => (c, cellV r c))) }

/-! ### The converter pipeline (src/convert.py, convert_gymrun_to_strong) -/

inductive ConvError where
  | missingEssential (cols : List String)
  | processingError
  | ambiguousTime (t : Nat)
  | nonExistentTime (t : Nat)
  | castError
  | missingFinalCols (cols : List String)
deriving DecidableEq, Repr

def essentialCols : List String := ["Date", "Time", "Exercise", "Set", "Weight", "Reps"]

/-- Lines 67-77: warn on missing optional columns (printing only), abort on
missing essential columns. -/
def checkEssential (df : DF) : Except ConvError DF :=
  if (essentialCols.filter (fun c => !df.cols.contains c)).isEmpty then .ok df
  else .error (.missingEssential (essentialCols.filter (fun c => !df.cols.contains c)))

/-- Line 83, the element-wise string concatenation
`df['Date'] + ' ' + df['Time']`: NaN operands propagate as NaN (pandas
masks missing values), a non-string non-NaN operand raises `TypeError`
(`none`). -/
def concatDT (d t : Value) : Option (Option String) :=
  match d, t with
  | .nan, _ => some none
  | .str _, .nan => some none
  | .str ds, .str ts => some (some (ds ++ " " ++ ts))
  | .str _, _ => none
  | _, _ => none

/-- Naive-timestamp computation for one row: `none` models a `TypeError`
escaping to the generic handler, `some none` a row whose timestamp
coerces to NaT. -/
def naiveOf (r : Row) : Option (Option Nat) :=
  (concatDT (cellV r "Date") (cellV r "Time")).map (fun o => o.bind parseTS)

def stampRow (r : Row) : Option Row :=
  match naiveOf r with
  | some (some t) => some (setV r "NaiveTimestamp" (.int t))
  | _ => none

/-- Lines 83-84: build the `NaiveTimestamp` column and drop the rows whose
timestamp failed to parse; any `TypeError` aborts the whole run. -/
def stampStage (df : DF) : Except ConvError DF :=
  if df.rows.all (fun r => (naiveOf r).isSome) then
    .ok { cols := if df.cols.contains "NaiveTimestamp" then df.cols
                  else df.cols ++ ["NaiveTimestamp"],
          rows := df.rows.filterMap stampRow }
  else .error .processingError

def naiveSecsOf (r : Row) : Nat :=
  match cellV r "NaiveTimestamp" with
  | .int n => n.toNat
  | _ => 0

/-- Lines 86-91: localize every naive timestamp to Europe/Oslo with
`is_dst=None` (raising on the first ambiguous or nonexistent local time)
and convert to UTC. -/
def localizeStage (df : DF) : Except ConvError DF :=
  match df.rows.find? (fun r => (osloClass (naiveSecsOf r)).isBoundary) with
  | some r =>
    if osloClass (naiveSecsOf r) = .ambiguous then .error (.ambiguousTime (naiveSecsOf r))
    else .error (.nonExistentTime (naiveSecsOf r))
  | none =>
    .ok ((df.setCol "LocalizedTimestamp" (fun r => .int (naiveSecsOf r))).setCol
      "Timestamp" (fun r => .int (osloUtc (naiveSecsOf r))))

/-- Lines 81-103 as one phase: parse, drop unparseable rows, localize,
convert to UTC. -/
def timestampPhase (df : DF) : Except ConvError DF := do
  let a ← stampStage df
  localizeStage a

def utcOf (r : Row) : Nat :=
  match cellV r "Timestamp" with
  | .int n => n.toNat
  | _ => 0

/-- Line 106: sort ascending by the UTC timestamp (the source's unstable
quicksort is modelled by a stable insertion sort; ties carry equal keys,
so every downstream computation is unaffected by tie order). -/
def insertByKey (r : Row) : List Row → List Row
  | [] => [r]
  | x :: xs => if utcOf r ≤ utcOf x then r :: x :: xs else x :: insertByKey r xs

def sortRows : List Row → List Row
  | [] => []
  | x :: xs => insertByKey x (sortRows xs)

def sortStage (df : DF) : DF := { df with rows := sortRows df.rows }

def intCell (r : Row) (c : String) : Int :=
  match cellV r c with
  | .int n => n
  | _ => 0

def natCell (r : Row) (c : String) : Nat := (intCell r c).toNat

def minOf : List Nat → Nat
  | [] => 0
  | [x] => x
  | x :: xs => min x (minOf xs)

def maxOf : List Nat → Nat
  | [] => 0
  | x :: xs => max x (maxOf xs)

/-- `pandas.unique`: the distinct values of a list in order of first
occurrence. -/
def uniqueInOrder {α : Type} [DecidableEq α] : List α → List α
  | [] => []
  | x :: xs => x :: uniqueInOrder (xs.filter (fun y => y ≠ x))
termination_by l => l.length
decreasing_by
  exact Nat.lt_succ_of_le (List.length_filter_le _ _)

def dateKeyOf (r : Row) : Nat := utcOf r / 86400

/-- The UTC timestamps of all rows (the `Timestamp` column as a list). -/
def groupKeys (df : DF) : List Nat := df.rows.map utcOf

/-- `groupby('WorkoutUTCDate')['Timestamp'].transform('min')` for one row:
the minimum timestamp among the rows sharing UTC date `dk`. -/
def groupMin (L : List Nat) (dk : Nat) : Nat := minOf (L.filter (fun v => v / 86400 == dk))

/-- Likewise `transform('max')`. -/
def groupMax (L : List Nat) (dk : Nat) : Nat := maxOf (L.filter (fun v => v / 86400 == dk))

def wdateFn : Row → Value := fun r => .int (dateKeyOf r)

def wstartFn (d : DF) : Row → Value := fun r => .int (groupMin (groupKeys d) (dateKeyOf r))

def wendFn (d : DF) : Row → Value := fun r => .int (groupMax (groupKeys d) (dateKeyOf r))

def wdurFn : Row → Value :=
  fun r => .int (intCell r "WorkoutEndTimeUTC" - intCell r "WorkoutStartTimeUTC")

/-- The `WorkoutUTCDate` column as a list. -/
def wdates (d : DF) : List Int := d.rows.map (fun r => intCell r "WorkoutUTCDate")

/-- Line 115-117: the 1-based workout number of a row, by first occurrence
of its UTC date. -/
def wnumFn (d : DF) : Row → Value :=
  fun r => .int (((uniqueInOrder (wdates d)).indexOf (intCell r "WorkoutUTCDate") : Int) + 1)

def wdateStrFn : Row → Value := fun r => .str (formatUTC (natCell r "WorkoutStartTimeUTC"))

/-- Lines 108-118: group by UTC calendar date; per row the group minimum,
maximum, whole-second duration, the 1-based workout number by first
occurrence of the date, and the formatted session start. -/
def groupStage (df : DF) : DF :=
  let df1 := df.setCol "WorkoutUTCDate" wdateFn
  let df2 := df1.setCol "WorkoutStartTimeUTC" (wstartFn df1)
  let df3 := df2.setCol "WorkoutEndTimeUTC" (wendFn df2)
  let df4 := df3.setCol "Duration (sec)" wdurFn
  let df5 := df4.setCol "Workout #" (wnumFn df4)
  df5.setCol "Date" wdateStrFn

/-- Lines 120-151: initialize `Seconds` and `Distance (meters)`, then
convert a positive numeric `Duration` (minutes) to integer seconds and a
positive numeric `Distance` (kilometers) to meters. -/
def cardioStage (df : DF) : DF :=
  let df1 := (df.setCol "Seconds" (fun _ => .int 0)).setCol
    "Distance (meters)" (fun _ => .float ⟨0, 0⟩)
  let df2 :=
    if df1.cols.contains "Duration" then
      df1.setCol "Seconds" (fun r =>
        let q := (toNumeric (cellV r "Duration")).getD ⟨0, 0⟩
        .int (if decPos q then decTrunc (decMulNat q 60) else 0))
    else df1
  if df2.cols.contains "Distance" then
    df2.setCol "Distance (meters)" (fun r =>
      let q := (toNumeric (cellV r "Distance")).getD ⟨0, 0⟩
      .float (if decPos q then decMulNat q 1000 else ⟨0, 0⟩))
  else df2

/-- Lines 154-165: the column renames. -/
def renameMapping : List (String × String) :=
  [("Routine", "Workout Name"), ("Exercise", "Exercise Name"), ("Set", "Set Order"),
   ("Weight", "Weight (kg)"), ("Note", "Notes")]

def renameString (n : String) : String :=
  (((renameMapping.find? (fun p => p.1 == n)).map Prod.snd)).getD n

def renameStage (df : DF) : DF :=
  { cols := df.cols.map renameString,
    rows := df.rows.map (fun r => r.map (fun p => (renameString p.1, p.2))) }

/-- Line 26: the valid mappings, `{str(k): str(v) for k, v in
mapping_dict.items() if pd.notna(k)}` — NaN keys dropped, everything else
coerced to text. -/
def validMappings (m : List (Value × Value)) : List (String × String) :=
  (m.filter (fun p => !p.1.isna)).map (fun p => (pyStr p.1, pyStr p.2))

/-- Python dict lookup with last-wins key collision (insertion order). -/
def lookupMapping (vm : List (String × String)) (s : String) : Option String :=
  (vm.reverse.find? (fun p => p.1 == s)).map Prod.snd

/-- src/convert.py lines 12-31, `apply_exercise_mappings`: coerce the
exercise column to text and replace values through the valid mappings. -/
def apply_exercise_mappings (df : DF) (mappingDict : List (Value × Value))
    (exerciseCol : String) : DF :=
  if df.cols.contains exerciseCol then
    df.setCol exerciseCol (fun r =>
      .str ((lookupMapping (validMappings mappingDict) (pyStr (cellV r exerciseCol))).getD
        (pyStr (cellV r exerciseCol))))
  else df

/-- Lines 170-181: the per-column defaults used when a target column is
absent and must be created. -/
def defaultFor (c : String) : Value :=
  if c = "RPE" ∨ c = "Notes" ∨ c = "Workout Notes" then .str ""
  else if c = "Weight (kg)" ∨ c = "Distance (meters)" then .float ⟨0, 0⟩
  else if c = "Reps" ∨ c = "Set Order" ∨ c = "Seconds" ∨ c = "Duration (sec)" then .int 0
  else .str ""

def addMissing (df : DF) (hs : List String) : DF :=
  hs.foldl (fun d c => if d.cols.contains c then d else d.setCol c (fun _ => defaultFor c)) df

/-- Lines 186-196: the fill defaults. -/
def fillDefaults : List (String × Value) :=
  [("Workout Name", .str "Workout"), ("Notes", .str ""), ("Workout Notes", .str ""),
   ("RPE", .str ""), ("Weight (kg)", .float ⟨0, 0⟩), ("Reps", .int 0), ("Set Order", .int 1),
   ("Seconds", .int 0), ("Distance (meters)", .float ⟨0, 0⟩)]

def defaultDec (v : Value) : Dec :=
  match v with
  | .int n => ⟨n, 0⟩
  | .float d => d
  | _ => ⟨0, 0⟩

/-- Lines 198-207, one cell: integer columns run
`to_numeric(errors='coerce').fillna(default).astype(int)`, float columns
the same with `astype(float)`, text columns only `fillna(default)`. -/
def fillCell (c : String) (dv : Value) (v : Value) : Value :=
  if c = "Set Order" ∨ c = "Reps" ∨ c = "Seconds" then
    .int (decTrunc ((toNumeric v).getD (defaultDec dv)))
  else if c = "Weight (kg)" ∨ c = "Distance (meters)" then
    .float ((toNumeric v).getD (defaultDec dv))
  else if v.isna then dv else v

def applyFill (df : DF) : DF :=
  fillDefaults.foldl
    (fun d p =>
      if d.cols.contains p.1 then d.setCol p.1 (fun r => fillCell p.1 p.2 (cellV r p.1))
      else d)
    df

/-- `astype(int)` on one cell (NaN and non-numeric text raise). -/
def castIntV : Value → Option Value
  | .int n => some (.int n)
  | .float d => some (.int (decTrunc d))
  | .str s => (parseIntStr s).map Value.int
  | .nan => none

/-- `astype(float)` on one cell (NaN is preserved, non-numeric text raises). -/
def castFloatV : Value → Option Value
  | .int n => some (.float ⟨n, 0⟩)
  | .float d => some (.float d)
  | .str s => (parseNumber s).map Value.float
  | .nan => some .nan

def astypeCol (df : DF) (c : String) (cast : Value → Option Value) : Option DF :=
  if df.cols.contains c && df.rows.all (fun r => (cast (cellV r c)).isSome) then
    some (df.setCol c (fun r => (cast (cellV r c)).getD .nan))
  else none

/-- Lines 211-216: the final dtype coercions; a failure here is an
exception escaping the run. -/
def astypeStage (df : DF) : Option DF := do
  let a ← astypeCol df "Set Order" castIntV
  let b ← astypeCol a "Reps" castIntV
  let c ← astypeCol b "Seconds" castIntV
  let d ← astypeCol c "Weight (kg)" castFloatV
  let e ← astypeCol d "Distance (meters)" castFloatV
  astypeCol e "Duration (sec)" castIntV

/-- Lines 105-238: everything after the timestamps are in UTC — sort,
group, convert cardio units, rename, map exercise names, complete and fill
the target columns, coerce dtypes, check the target header list and select
the output columns. -/
def finalizeStage (c : DF) (strongHeaders : List String)
    (initialMapping : List (Value × Value)) : Except ConvError DF :=
  match astypeStage (applyFill (addMissing (apply_exercise_mappings
      (renameStage (cardioStage (groupStage (sortStage c)))) initialMapping
      "Exercise Name") strongHeaders)) with
  | none => .error .castError
  | some j =>
    if (strongHeaders.filter (fun col => !j.cols.contains col)).isEmpty then
      .ok (j.select strongHeaders)
    else .error (.missingFinalCols (strongHeaders.filter (fun col => !j.cols.contains col)))

/-- src/convert.py lines 33-239, `convert_gymrun_to_strong` after file
loading: the whole transformation from the loaded source table, the target
header list and the initial mapping dictionary to the written table (or an
abort, in which case nothing is written). -/
def convert_gymrun_to_strong (gymrun : DF) (strongHeaders : List String)
    (initialMapping : List (Value × Value)) : Except ConvError DF :=
  match checkEssential gymrun with
  | .error e => .error e
  | .ok a =>
    match timestampPhase a with
    | .error e => .error e
    | .ok c => finalizeStage c strongHeaders initialMapping

/-! ### The unmapped-exercise extractor (src/exercises.py) -/

/-- `nunique`: distinct non-NaN values. -/
def nunique (vs : List Value) : Nat :=
  (uniqueInOrder (vs.filter (fun v => !v.isna))).length

/-- src/exercises.py lines 10-64, `extract_unmapped_exercises` after file
loading: keep the rows whose text-coerced exercise name is not a key of the
mapping dictionary and count the distinct unmapped names; `none` models the
missing-column abort. -/
def extract_unmapped_exercises (df : DF) (mappingDict : List (Value × Value))
    (exerciseCol : String) : Option (DF × Nat) :=
  if df.cols.contains exerciseCol then
    let mappedExercises := mappingDict.map Prod.fst
    let unmapped : DF :=
      { cols := df.cols,
        rows := df.rows.filter
          (fun r => !mappedExercises.contains (Value.str (pyStr (cellV r exerciseCol)))) }
    some (unmapped, nunique (unmapped.rows.map (fun r => cellV r exerciseCol)))
  else none

/-! ### Named helper rows, tables and predicates used by the claim theorems -/

def c5df : DF :=
  { cols := ["Duration", "Distance"],
    rows := [[("Duration", .str "5"), ("Distance", .str "2.5")]] }

def c7df : DF := { cols := ["Exercise Name"], rows := [[("Exercise Name", .str "5")]] }

def c7df2 : DF := { cols := ["Exercise Name"], rows := [[("Exercise Name", .str "Squat")]] }

def c8df : DF :=
  { cols := ["Exercise"],
    rows := [[("Exercise", .str "Barbell Bench")], [("Exercise", .str "Squat")],
             [("Exercise", .str "Squat")]] }

def c2df : DF :=
  { cols := ["Timestamp"],
    rows := [[("Timestamp", .int 100)], [("Timestamp", .int 200)]] }

def c3df : DF :=
  { cols := ["Timestamp"],
    rows := [[("Timestamp", .int 100)], [("Timestamp", .int 200)],
             [("Timestamp", .int 86500)]] }

/-- A row whose `Date` and `Time` cells are text, whose combined timestamp
parses in the fixed `%d.%m.%Y %H:%M:%S` format, and whose local time is
off the DST boundaries. -/
def goodRow (r : Row) : Bool :=
  match cellV r "Date", cellV r "Time" with
  | .str d, .str t =>
    match parseTS (d ++ " " ++ t) with
    | some n => !(osloClass n).isBoundary
    | none => false
  | _, _ => false

/-- The parsed naive timestamp of a row (meaningful when it parses). -/
def theNaive (r : Row) : Nat := ((naiveOf r).getD none).getD 0

def c1df : DF :=
  { cols := ["Date", "Time"],
    rows := [[("Date", .str "15.01.2024"), ("Time", .str "12:00:00")],
             [("Date", .str "03.05.2024"), ("Time", .str "18:30:00")]] }

def c4row : Row :=
  [("Date", .str "27.10.2024"), ("Time", .str "02:30:00"), ("Exercise", .str "Squat"),
   ("Set", .int 1), ("Weight", .float ⟨50, 0⟩), ("Reps", .int 5)]

def c4df : DF :=
  { cols := ["Date", "Time", "Exercise", "Set", "Weight", "Reps"], rows := [c4row] }

def c9df : DF :=
  { cols := ["Date", "Time"],
    rows := [[("Date", .str "03.05.2024"), ("Time", .str "18:30:00")],
             [("Date", .str "not a date"), ("Time", .str "xx")],
             [("Date", .nan), ("Time", .str "10:00:00")]] }

def c6df : DF :=
  { cols := ["Workout Name", "Notes", "Workout Notes", "Set Order", "Seconds",
             "Weight (kg)", "Distance (meters)"],
    rows := [[("Workout Name", .nan), ("Notes", .nan), ("Workout Notes", .nan),
              ("Set Order", .str "x"), ("Seconds", .nan),
              ("Weight (kg)", .nan), ("Distance (meters)", .str "abc")]] }

def c6hs : List String := ["RPE", "Reps"]

def c6r : Row :=
  [("Workout Name", .nan), ("Notes", .nan), ("Workout Notes", .nan),
   ("Set Order", .str "x"), ("Seconds", .nan),
   ("Weight (kg)", .nan), ("Distance (meters)", .str "abc")]

def c10df : DF :=
  { cols := ["Date", "Time", "Exercise", "Set", "Weight", "Reps"], rows := [] }

def c10hs : List String := ["Date", "Workout Name", "Exercise Name"]

/-! ### Basic lemmas about cells, rows and dataframes -/

theorem find?_filter_ne_none (r : Row) (c : String) :
    (r.filter (fun p => p.1 != c)).find? (fun p => p.1 == c) = none := by
  rw [List.find?_eq_none]
  intro x hx
  have hne := List.of_mem_filter hx
  simp only [bne_iff_ne, ne_eq] at hne
  simp [hne]

theorem cellV_setV_self (r : Row) (c : String) (v : Value) :
    cellV (setV r c v) c = v := by
  unfold cellV setV
  rw [List.find?_append, find?_filter_ne_none]
  simp

theorem find?_filter_ne (r : Row) (c c' : String) (h : c' ≠ c) :
    (r.filter (fun p => p.1 != c)).find? (fun p => p.1 == c') =
      r.find? (fun p => p.1 == c') := by
  induction r with
  | nil => rfl
  | cons p ps ih =>
    by_cases hpc : p.1 = c
    · have h1 : (p.1 != c) = false := by simp [hpc]
      have h2 : (p.1 == c') = false := by
        simp only [beq_eq_false_iff_ne, ne_eq, hpc]
        exact fun e => h e.symm
      simp [List.filter_cons, h1, List.find?_cons, h2, ih]
    · have h1 : (p.1 != c) = true := by simp [hpc]
      simp only [List.filter_cons, h1, if_true, List.find?_cons]
      cases hpq : (p.1 == c') with
      | true => rfl
      | false => exact ih

theorem cellV_setV_ne (r : Row) (c c' : String) (v : Value) (h : c' ≠ c) :
    cellV (setV r c v) c' = cellV r c' := by
  unfold cellV setV
  rw [List.find?_append, find?_filter_ne r c c' h]
  have h2 : List.find? (fun p => p.1 == c') [(c, v)] = none := by
    simp only [List.find?_cons, List.find?_nil]
    have : ((c, v).1 == c') = false := by
      simp only [beq_eq_false_iff_ne, ne_eq]
      exact fun e => h e.symm
    simp [this]
  rw [h2]
  cases r.find? (fun p => p.1 == c') <;> rfl

/-- The two cell lemmas combined, `simp`-friendly on literal column names. -/
theorem cellV_setV (r : Row) (c c' : String) (v : Value) :
    cellV (setV r c v) c' = if c' = c then v else cellV r c' := by
  by_cases h : c' = c
  · subst h; simp [cellV_setV_self]
  · simp [h, cellV_setV_ne r c c' v h]

theorem rows_setCol (df : DF) (c : String) (f : Row → Value) :
    (df.setCol c f).rows = df.rows.map (fun r => setV r c (f r)) := rfl

theorem contains_iff {α : Type} [BEq α] [LawfulBEq α] {l : List α} {a : α} :
    l.contains a = true ↔ a ∈ l := List.elem_iff

theorem contains_eq_decide {α : Type} [BEq α] [LawfulBEq α] (l : List α) (a : α) :
    l.contains a = decide (a ∈ l) := by
  by_cases h : a ∈ l
  · simp [contains_iff.mpr h, h]
  · rw [decide_eq_false h]
    cases hc : l.contains a with
    | false => rfl
    | true => exact absurd (contains_iff.mp hc) h

theorem mem_cols_setCol (df : DF) (c c' : String) (f : Row → Value) :
    c' ∈ (df.setCol c f).cols ↔ c' ∈ df.cols ∨ c' = c := by
  unfold DF.setCol
  by_cases h : df.cols.contains c = true
  · have hc : c ∈ df.cols := contains_iff.mp h
    rw [if_pos h]
    exact ⟨Or.inl, fun hm => hm.elim id (fun e => e ▸ hc)⟩
  · rw [if_neg h]
    simp [List.mem_append]

theorem cols_setCol_of_contains (df : DF) (c : String) (f : Row → Value)
    (h : df.cols.contains c = true) : (df.setCol c f).cols = df.cols := by
  unfold DF.setCol
  rw [if_pos h]

theorem contains_cols_setCol (df : DF) (c c' : String) (f : Row → Value) :
    (df.setCol c f).cols.contains c' = (df.cols.contains c' || c' == c) := by
  have hiff := mem_cols_setCol df c c' f
  cases hb : (df.cols.contains c' || c' == c) with
  | true =>
    have hb2 : c' ∈ df.cols ∨ c' = c := by simpa using hb
    exact contains_iff.mpr (hiff.mpr hb2)
  | false =>
    have hb2 : c' ∉ df.cols ∧ ¬ c' = c := by simpa using hb
    have h3 : ¬ c' ∈ (df.setCol c f).cols := fun hm => (hiff.mp hm).elim hb2.1 hb2.2
    cases hc : (df.setCol c f).cols.contains c' with
    | false => rfl
    | true => exact absurd (contains_iff.mp hc) h3

theorem naiveSecsOf_setV (r : Row) (c : String) (v : Value) (h : c ≠ "NaiveTimestamp") :
    naiveSecsOf (setV r c v) = naiveSecsOf r := by
  unfold naiveSecsOf
  rw [cellV_setV_ne r c "NaiveTimestamp" v (Ne.symm h)]

theorem intCell_setV (r : Row) (c c' : String) (v : Value) :
    intCell (setV r c v) c' = if c' = c then (match v with | .int n => n | _ => 0)
      else intCell r c' := by
  unfold intCell
  rw [cellV_setV]
  by_cases h : c' = c <;> simp [h]

/-! ### Lemmas about minOf, maxOf, sorting and uniqueInOrder -/

theorem minOf_le_of_mem {l : List Nat} {a : Nat} (h : a ∈ l) : minOf l ≤ a := by
  induction l with
  | nil => cases h
  | cons x xs ih =>
    cases xs with
    | nil =>
      rcases List.mem_singleton.mp h with rfl
      exact le_refl _
    | cons y ys =>
      have hm : minOf (x :: y :: ys) = min x (minOf (y :: ys)) := rfl
      rw [hm]
      rcases List.mem_cons.mp h with rfl | hmem
      · exact min_le_left _ _
      · exact le_trans (min_le_right _ _) (ih hmem)

theorem le_maxOf_of_mem {l : List Nat} {a : Nat} (h : a ∈ l) : a ≤ maxOf l := by
  induction l with
  | nil => cases h
  | cons x xs ih =>
    rcases List.mem_cons.mp h with rfl | hmem
    · exact le_max_left _ _
    · exact le_trans (ih hmem) (le_max_right _ _)

theorem length_insertByKey (r : Row) (l : List Row) :
    (insertByKey r l).length = l.length + 1 := by
  induction l with
  | nil => rfl
  | cons x xs ih =>
    unfold insertByKey
    by_cases h : utcOf r ≤ utcOf x <;> simp [h, ih]

theorem length_sortRows (l : List Row) : (sortRows l).length = l.length := by
  induction l with
  | nil => rfl
  | cons x xs ih => simp [sortRows, length_insertByKey, ih]

theorem mem_insertByKey {r x : Row} {l : List Row} :
    x ∈ insertByKey r l ↔ x = r ∨ x ∈ l := by
  induction l with
  | nil => simp [insertByKey]
  | cons y ys ih =>
    unfold insertByKey
    by_cases h : utcOf r ≤ utcOf y
    · rw [if_pos h]
      simp [List.mem_cons]
    · rw [if_neg h]
      simp only [List.mem_cons, ih]
      tauto

theorem mem_sortRows {x : Row} {l : List Row} : x ∈ sortRows l ↔ x ∈ l := by
  induction l with
  | nil => simp [sortRows]
  | cons y ys ih => simp [sortRows, mem_insertByKey, ih, List.mem_cons]

theorem sorted_insertByKey {r : Row} {l : List Row}
    (h : l.Pairwise (fun a b => utcOf a ≤ utcOf b)) :
    (insertByKey r l).Pairwise (fun a b => utcOf a ≤ utcOf b) := by
  induction l with
  | nil => simp [insertByKey]
  | cons x xs ih =>
    rcases List.pairwise_cons.mp h with ⟨hx, hxs⟩
    unfold insertByKey
    by_cases hle : utcOf r ≤ utcOf x
    · simp only [hle, if_true]
      refine List.pairwise_cons.mpr ⟨?_, h⟩
      intro b hb
      rcases List.mem_cons.mp hb with rfl | hmem
      · exact hle
      · exact le_trans hle (hx b hmem)
    · simp only [hle, if_false]
      refine List.pairwise_cons.mpr ⟨?_, ih hxs⟩
      intro b hb
      rcases mem_insertByKey.mp hb with rfl | hmem
      · exact le_of_not_le hle
      · exact hx b hmem

theorem sorted_sortRows (l : List Row) :
    (sortRows l).Pairwise (fun a b => utcOf a ≤ utcOf b) := by
  induction l with
  | nil => simp [sortRows]
  | cons x xs ih => exact sorted_insertByKey ih

theorem mem_uniqueInOrder {α : Type} [DecidableEq α] {l : List α} {a : α} :
    a ∈ uniqueInOrder l ↔ a ∈ l := by
  induction l using uniqueInOrder.induct with
  | case1 => rw [uniqueInOrder]
  | case2 x xs ih =>
    rw [uniqueInOrder]
    by_cases hax : a = x
    · subst hax; simp
    · have hf : a ∈ xs.filter (fun y => y ≠ x) ↔ a ∈ xs := by
        simp [List.mem_filter, hax]
      simp only [List.mem_cons, hax, false_or, ih, hf]

theorem nodup_uniqueInOrder {α : Type} [DecidableEq α] (l : List α) :
    (uniqueInOrder l).Nodup := by
  induction l using uniqueInOrder.induct with
  | case1 => rw [uniqueInOrder]; exact List.nodup_nil
  | case2 x xs ih =>
    rw [uniqueInOrder]
    refine List.nodup_cons.mpr ⟨?_, ih⟩
    intro hmem
    have h2 := List.mem_filter.mp (mem_uniqueInOrder.mp hmem)
    simpa using h2.2

theorem toFinset_uniqueInOrder {α : Type} [DecidableEq α] (l : List α) :
    (uniqueInOrder l).toFinset = l.toFinset := by
  ext a
  simp [List.mem_toFinset, mem_uniqueInOrder]

theorem length_uniqueInOrder {α : Type} [DecidableEq α] (l : List α) :
    (uniqueInOrder l).length = l.toFinset.card := by
  rw [← toFinset_uniqueInOrder, List.toFinset_card_of_nodup (nodup_uniqueInOrder l)]

/-! ### Claim C5: duration and distance unit conversion -/

/-- **C5**: for every row, a `Duration` cell that is present, numeric and
positive is interpreted as minutes and converted to integer seconds
(`minutes * 60` truncated to an integer), otherwise `Seconds` is 0; a
`Distance` cell that is present, numeric and positive is interpreted as
kilometers and converted to meters (`km * 1000`, kept a float), otherwise
`Distance (meters)` is 0.0. -/
theorem c5_cardio_units (df : DF) (i : Nat) (r : Row) (hr : df.rows[i]? = some r) :
    ∃ r2, (cardioStage df).rows[i]? = some r2 ∧
      cellV r2 "Seconds" =
        .int (if df.cols.contains "Duration" then
            match toNumeric (cellV r "Duration") with
            | some q => if decPos q then decTrunc (decMulNat q 60) else 0
            | none => 0
          else 0) ∧
      cellV r2 "Distance (meters)" =
        .float (if df.cols.contains "Distance" then
            match toNumeric (cellV r "Distance") with
            | some q => if decPos q then decMulNat q 1000 else ⟨0, 0⟩
            | none => ⟨0, 0⟩
          else ⟨0, 0⟩) := by
  have e1 : (("Duration" : String) == "Distance (meters)") = false := by decide
  have e2 : (("Duration" : String) == "Seconds") = false := by decide
  have e3 : (("Distance" : String) == "Distance (meters)") = false := by decide
  have e4 : (("Distance" : String) == "Seconds") = false := by decide
  have hD : ∀ (f g : Row → Value),
      ((df.setCol "Seconds" f).setCol "Distance (meters)" g).cols.contains "Duration" =
        df.cols.contains "Duration" := by
    intro f g
    rw [contains_cols_setCol, contains_cols_setCol, e1, e2, Bool.or_false, Bool.or_false]
  have hX : ∀ (f g : Row → Value),
      ((df.setCol "Seconds" f).setCol "Distance (meters)" g).cols.contains "Distance" =
        df.cols.contains "Distance" := by
    intro f g
    rw [contains_cols_setCol, contains_cols_setCol, e3, e4, Bool.or_false, Bool.or_false]
  have hX2 : ∀ (f g h : Row → Value),
      (((df.setCol "Seconds" f).setCol "Distance (meters)" g).setCol "Seconds" h).cols.contains
        "Distance" = df.cols.contains "Distance" := by
    intro f g h
    rw [contains_cols_setCol, e4, Bool.or_false, hX]
  have hsec : ∀ v : Value,
      (if decPos ((toNumeric v).getD ⟨0, 0⟩) then
        decTrunc (decMulNat ((toNumeric v).getD ⟨0, 0⟩) 60) else 0) =
      (match toNumeric v with
        | some q => if decPos q then decTrunc (decMulNat q 60) else 0
        | none => 0) := by
    intro v
    rcases toNumeric v with _ | q
    · simp [Option.getD, show decPos ⟨0, 0⟩ = false from by decide]
    · rfl
  have hdis : ∀ v : Value,
      (if decPos ((toNumeric v).getD ⟨0, 0⟩) then
        decMulNat ((toNumeric v).getD ⟨0, 0⟩) 1000 else ⟨0, 0⟩) =
      (match toNumeric v with
        | some q => if decPos q then decMulNat q 1000 else ⟨0, 0⟩
        | none => ⟨0, 0⟩) := by
    intro v
    rcases toNumeric v with _ | q
    · simp [Option.getD, show decPos ⟨0, 0⟩ = false from by decide]
    · rfl
  cases hdur : df.cols.contains "Duration" with
  | true =>
    cases hdist : df.cols.contains "Distance" with
    | true =>
      simp only [cardioStage, hD, hX, hX2, hdur, hdist, if_true, rows_setCol,
        List.map_map, List.getElem?_map, hr, Option.map_some, Option.some.injEq]
      refine ⟨_, rfl, ?_, ?_⟩ <;>
        simp [cellV_setV, hsec, hdis]
    | false =>
      simp only [cardioStage, hD, hX, hX2, hdur, hdist, if_true, Bool.false_eq_true,
        if_false, rows_setCol, List.map_map, List.getElem?_map, hr, Option.map_some,
        Option.some.injEq]
      refine ⟨_, rfl, ?_, ?_⟩ <;>
        simp [cellV_setV, hsec, hdis]
  | false =>
    cases hdist : df.cols.contains "Distance" with
    | true =>
      simp only [cardioStage, hD, hX, hX2, hdur, hdist, if_true, Bool.false_eq_true,
        if_false, rows_setCol, List.map_map, List.getElem?_map, hr, Option.map_some,
        Option.some.injEq]
      refine ⟨_, rfl, ?_, ?_⟩ <;>
        simp [cellV_setV, hsec, hdis]
    | false =>
      simp only [cardioStage, hD, hX, hX2, hdur, hdist, Bool.false_eq_true, if_false,
        rows_setCol, List.map_map, List.getElem?_map, hr, Option.map_some,
        Option.some.injEq]
      refine ⟨_, rfl, ?_, ?_⟩ <;> simp [cellV_setV]

/-- Witness for C5 at a concrete row: duration `5` (minutes) becomes 300
seconds and distance `2.5` (km) becomes 2500.0 meters. -/
theorem c5_cardio_units_witness :
    c5df.rows[0]? = some [("Duration", Value.str "5"), ("Distance", Value.str "2.5")] ∧
    ∃ r2, (cardioStage c5df).rows[0]? = some r2 ∧
      cellV r2 "Seconds" = .int 300 ∧ cellV r2 "Distance (meters)" = .float ⟨2500, 0⟩ := by
  refine ⟨by decide, ?_⟩
  obtain ⟨r2, h1, h2, h3⟩ := c5_cardio_units c5df 0
    [("Duration", Value.str "5"), ("Distance", Value.str "2.5")] (by decide)
  refine ⟨r2, h1, ?_, ?_⟩
  · rw [h2]; decide
  · rw [h3]; decide

/-! ### Claim C7: exercise-name substitution -/

/-- **C7** counterexample: the claim says dictionary entries with non-text
keys are ignored, but the entry keyed by the integer `5` — a non-text key —
is applied after text coercion: it rewrites the exercise name "5", so the
substitution differs from the one with that entry absent. -/
theorem c7_nontext_key_not_ignored :
    apply_exercise_mappings c7df [(Value.int 5, Value.str "Mapped")] "Exercise Name" ≠
      apply_exercise_mappings c7df [] "Exercise Name" ∧
    (apply_exercise_mappings c7df [(Value.int 5, Value.str "Mapped")] "Exercise Name").rows =
      [[("Exercise Name", Value.str "Mapped")]] := by
  exact ⟨by decide, by decide⟩

/-- **C7 (amended)**: exercise-name substitution maps each value of the
exercise-name column, coerced to text, through the caller-supplied
dictionary; names absent from the dictionary pass through unchanged; keys
and values are compared as text after coercion; entries with missing (NaN)
keys are ignored, while entries with non-text keys take part after text
coercion.  When the exercise column is absent the table is unchanged. -/
theorem c7_text_substitution (df : DF) (m : List (Value × Value)) (col : String) :
    (df.cols.contains col = false → apply_exercise_mappings df m col = df) ∧
    (df.cols.contains col = true →
      ∀ (i : Nat) (r : Row), df.rows[i]? = some r →
        ∃ r2, (apply_exercise_mappings df m col).rows[i]? = some r2 ∧
          cellV r2 col =
            .str ((lookupMapping (validMappings m) (pyStr (cellV r col))).getD
              (pyStr (cellV r col))) ∧
          (∀ s : String, cellV r col = .str s → (∀ p ∈ validMappings m, p.1 ≠ s) →
            cellV r2 col = .str s)) ∧
    (∀ v : Value, apply_exercise_mappings df ((Value.nan, v) :: m) col =
      apply_exercise_mappings df m col) := by
  refine ⟨?_, ?_, ?_⟩
  · intro h
    unfold apply_exercise_mappings
    rw [h]
    rfl
  · intro h i r hr
    unfold apply_exercise_mappings
    rw [h]
    simp only [if_true, rows_setCol, List.getElem?_map, hr, Option.map_some,
      Option.some.injEq]
    refine ⟨_, rfl, ?_, ?_⟩
    · rw [cellV_setV_self]
    · intro s hs hnk
      rw [cellV_setV_self, hs]
      have hnone : lookupMapping (validMappings m) s = none := by
        unfold lookupMapping
        rw [List.find?_eq_none.mpr]
        · rfl
        · intro p hp
          have hpm := List.mem_reverse.mp hp
          have := hnk p hpm
          simp [this]
      simp only [pyStr, hnone, Option.getD_none]
  · intro v
    have hv : validMappings ((Value.nan, v) :: m) = validMappings m := by
      unfold validMappings
      rw [List.filter_cons]
      simp [Value.isna]
    unfold apply_exercise_mappings
    rw [hv]

/-- Witness for the amended C7: a name absent from the dictionary passes
through unchanged. -/
theorem c7_text_substitution_witness :
    c7df2.cols.contains "Exercise Name" = true ∧
    c7df2.rows[0]? = some [("Exercise Name", Value.str "Squat")] ∧
    ∃ r2, (apply_exercise_mappings c7df2
        [(Value.str "Barbell Bench", Value.str "Bench Press (Barbell)")]
        "Exercise Name").rows[0]? = some r2 ∧
      cellV r2 "Exercise Name" = .str "Squat" := by
  refine ⟨by decide, by decide, ?_⟩
  obtain ⟨r2, h1, h2, h3⟩ :=
    (c7_text_substitution c7df2
      [(Value.str "Barbell Bench", Value.str "Bench Press (Barbell)")] "Exercise Name").2.1
      (by decide) 0 [("Exercise Name", Value.str "Squat")] (by decide)
  exact ⟨r2, h1, h3 "Squat" (by decide) (by decide)⟩

/-! ### Claim C8: the unmapped-exercise extractor -/

/-- **C8**: given source rows and a mapping dictionary, the extractor
returns exactly the rows whose text-coerced exercise name is not a key of
the dictionary, each kept row unchanged, together with the number of
distinct unmapped exercise names (distinct non-NaN cell values of the kept
rows). -/
theorem c8_unmapped_extractor (df : DF) (m : List (Value × Value)) (col : String)
    (h : df.cols.contains col = true) :
    ∃ out cnt, extract_unmapped_exercises df m col = some (out, cnt) ∧
      out.cols = df.cols ∧
      out.rows = df.rows.filter
        (fun r => !(m.map Prod.fst).contains (Value.str (pyStr (cellV r col)))) ∧
      (∀ r, r ∈ out.rows → r ∈ df.rows) ∧
      (∀ r, r ∈ df.rows →
        (r ∈ out.rows ↔ Value.str (pyStr (cellV r col)) ∉ m.map Prod.fst)) ∧
      cnt = ((out.rows.map (fun r => cellV r col)).filter
        (fun v => !v.isna)).toFinset.card := by
  unfold extract_unmapped_exercises
  rw [if_pos h]
  refine ⟨_, _, rfl, rfl, rfl, ?_, ?_, ?_⟩
  · intro r hrm
    exact List.mem_of_mem_filter hrm
  · intro r hrm
    constructor
    · intro hmem
      have h2 := (List.mem_filter.mp hmem).2
      intro hk
      rw [contains_iff.mpr hk] at h2
      simp at h2
    · intro hk
      refine List.mem_filter.mpr ⟨hrm, ?_⟩
      cases hc : (m.map Prod.fst).contains (Value.str (pyStr (cellV r col))) with
      | false => rfl
      | true => exact absurd (contains_iff.mp hc) hk
  · unfold nunique
    rw [length_uniqueInOrder]

/-- Witness for C8 at the spec's example: with mapping key "Barbell Bench",
only the "Squat" rows remain and exactly one distinct unmapped exercise is
reported. -/
theorem c8_unmapped_extractor_witness :
    c8df.cols.contains "Exercise" = true ∧
    ∃ out cnt, extract_unmapped_exercises c8df
        [(Value.str "Barbell Bench", Value.str "Bench Press (Barbell)")] "Exercise" =
        some (out, cnt) ∧
      out.rows = [[("Exercise", Value.str "Squat")], [("Exercise", Value.str "Squat")]] ∧
      cnt = 1 := by
  refine ⟨by decide, ?_⟩
  obtain ⟨out, cnt, h1, _, h3, _, _, h6⟩ :=
    c8_unmapped_extractor c8df
      [(Value.str "Barbell Bench", Value.str "Bench Press (Barbell)")] "Exercise" (by decide)
  refine ⟨out, cnt, h1, ?_, ?_⟩
  · rw [h3]; decide
  · rw [h6, h3]; decide

/-! ### Claims C2 and C3: session grouping and numbering -/

theorem utcOf_setV (r : Row) (c : String) (v : Value) :
    utcOf (setV r c v) =
      if "Timestamp" = c then (match v with | .int n => n.toNat | _ => 0) else utcOf r := by
  unfold utcOf
  rw [cellV_setV]
  by_cases h : "Timestamp" = c <;> simp [h]

theorem natCell_setV (r : Row) (c c' : String) (v : Value) :
    natCell (setV r c v) c' =
      if c' = c then (match v with | .int n => n.toNat | _ => 0) else natCell r c' := by
  unfold natCell intCell
  rw [cellV_setV]
  by_cases h : c' = c
  · rcases v <;> simp [h]
  · simp [h]

theorem dateKeyOf_setV (r : Row) (c : String) (v : Value) (h : ¬ "Timestamp" = c) :
    dateKeyOf (setV r c v) = dateKeyOf r := by
  unfold dateKeyOf
  rw [utcOf_setV, if_neg h]

theorem groupKeys_setCol (df : DF) (c : String) (f : Row → Value) (h : ¬ "Timestamp" = c) :
    groupKeys (df.setCol c f) = groupKeys df := by
  unfold groupKeys
  rw [rows_setCol, List.map_map]
  apply List.map_congr_left
  intro a _
  show utcOf (setV a c (f a)) = utcOf a
  rw [utcOf_setV, if_neg h]

theorem wdates_setCol (d : DF) (c : String) (f : Row → Value) (h : ¬ "WorkoutUTCDate" = c) :
    wdates (d.setCol c f) = wdates d := by
  unfold wdates
  rw [rows_setCol, List.map_map]
  apply List.map_congr_left
  intro a _
  show intCell (setV a c (f a)) "WorkoutUTCDate" = intCell a "WorkoutUTCDate"
  rw [intCell_setV, if_neg h]

theorem wdates_after_wdate (df : DF) :
    wdates (df.setCol "WorkoutUTCDate" wdateFn) =
      df.rows.map (fun q => ((dateKeyOf q : Nat) : Int)) := by
  unfold wdates
  rw [rows_setCol, List.map_map]
  apply List.map_congr_left
  intro a _
  show intCell (setV a "WorkoutUTCDate" (wdateFn a)) "WorkoutUTCDate" = _
  rw [intCell_setV, if_pos rfl]
  rfl

theorem setCol_rows_getElem (df : DF) (c : String) (f : Row → Value) (i : Nat) (r : Row)
    (hr : df.rows[i]? = some r) : (df.setCol c f).rows[i]? = some (setV r c (f r)) := by
  rw [rows_setCol, List.getElem?_map, hr]
  rfl

/-- The derived per-row cells of the grouping stage, in closed form. -/
theorem groupStage_cells (df : DF) (i : Nat) (r : Row) (hr : df.rows[i]? = some r) :
    ∃ R, (groupStage df).rows[i]? = some R ∧
      cellV R "WorkoutUTCDate" = .int (dateKeyOf r) ∧
      cellV R "WorkoutStartTimeUTC" = .int (groupMin (groupKeys df) (dateKeyOf r)) ∧
      cellV R "WorkoutEndTimeUTC" = .int (groupMax (groupKeys df) (dateKeyOf r)) ∧
      cellV R "Duration (sec)" = .int ((groupMax (groupKeys df) (dateKeyOf r) : Int) -
        (groupMin (groupKeys df) (dateKeyOf r) : Int)) ∧
      cellV R "Workout #" = .int (((uniqueInOrder (df.rows.map
          (fun q => ((dateKeyOf q : Nat) : Int)))).indexOf
        ((dateKeyOf r : Nat) : Int) : Int) + 1) ∧
      cellV R "Date" = .str (formatUTC (groupMin (groupKeys df) (dateKeyOf r))) := by
  set d1 := df.setCol "WorkoutUTCDate" wdateFn with hd1
  set d2 := d1.setCol "WorkoutStartTimeUTC" (wstartFn d1) with hd2
  set d3 := d2.setCol "WorkoutEndTimeUTC" (wendFn d2) with hd3
  set d4 := d3.setCol "Duration (sec)" wdurFn with hd4
  set d5 := d4.setCol "Workout #" (wnumFn d4) with hd5
  have hgs : groupStage df = d5.setCol "Date" wdateStrFn := rfl
  have h1 := setCol_rows_getElem df "WorkoutUTCDate" wdateFn i r hr
  set R1 := setV r "WorkoutUTCDate" (wdateFn r) with hR1
  have h2 := setCol_rows_getElem d1 "WorkoutStartTimeUTC" (wstartFn d1) i R1 h1
  set R2 := setV R1 "WorkoutStartTimeUTC" (wstartFn d1 R1) with hR2
  have h3 := setCol_rows_getElem d2 "WorkoutEndTimeUTC" (wendFn d2) i R2 h2
  set R3 := setV R2 "WorkoutEndTimeUTC" (wendFn d2 R2) with hR3
  have h4 := setCol_rows_getElem d3 "Duration (sec)" wdurFn i R3 h3
  set R4 := setV R3 "Duration (sec)" (wdurFn R3) with hR4
  have h5 := setCol_rows_getElem d4 "Workout #" (wnumFn d4) i R4 h4
  set R5 := setV R4 "Workout #" (wnumFn d4 R4) with hR5
  have h6 := setCol_rows_getElem d5 "Date" wdateStrFn i R5 h5
  have hK1 : groupKeys d1 = groupKeys df := by
    rw [hd1, groupKeys_setCol _ _ _ (by decide)]
  have hK2 : groupKeys d2 = groupKeys df := by
    rw [hd2, groupKeys_setCol _ _ _ (by decide), hK1]
  have hdk1 : dateKeyOf R1 = dateKeyOf r := by
    rw [hR1, dateKeyOf_setV _ _ _ (by decide)]
  have hdk2 : dateKeyOf R2 = dateKeyOf r := by
    rw [hR2, dateKeyOf_setV _ _ _ (by decide), hdk1]
  have hw4 : wdates d4 = df.rows.map (fun q => ((dateKeyOf q : Nat) : Int)) := by
    rw [hd4, wdates_setCol _ _ _ (by decide), hd3, wdates_setCol _ _ _ (by decide),
      hd2, wdates_setCol _ _ _ (by decide), hd1, wdates_after_wdate]
  rw [hgs]
  refine ⟨_, h6, ?_, ?_, ?_, ?_, ?_, ?_⟩
  · rw [cellV_setV_ne _ _ _ _ (by decide), hR5, cellV_setV_ne _ _ _ _ (by decide),
      hR4, cellV_setV_ne _ _ _ _ (by decide), hR3, cellV_setV_ne _ _ _ _ (by decide),
      hR2, cellV_setV_ne _ _ _ _ (by decide), hR1, cellV_setV_self]
    rfl
  · rw [cellV_setV_ne _ _ _ _ (by decide), hR5, cellV_setV_ne _ _ _ _ (by decide),
      hR4, cellV_setV_ne _ _ _ _ (by decide), hR3, cellV_setV_ne _ _ _ _ (by decide),
      hR2, cellV_setV_self]
    show Value.int (groupMin (groupKeys d1) (dateKeyOf R1)) = _
    rw [hK1, hdk1]
  · rw [cellV_setV_ne _ _ _ _ (by decide), hR5, cellV_setV_ne _ _ _ _ (by decide),
      hR4, cellV_setV_ne _ _ _ _ (by decide), hR3, cellV_setV_self]
    show Value.int (groupMax (groupKeys d2) (dateKeyOf R2)) = _
    rw [hK2, hdk2]
  · rw [cellV_setV_ne _ _ _ _ (by decide), hR5, cellV_setV_ne _ _ _ _ (by decide),
      hR4, cellV_setV_self]
    have hiEnd : intCell R3 "WorkoutEndTimeUTC" =
        ((groupMax (groupKeys df) (dateKeyOf r) : Nat) : Int) := by
      rw [hR3, intCell_setV, if_pos rfl]
      show ((groupMax (groupKeys d2) (dateKeyOf R2) : Nat) : Int) = _
      rw [hK2, hdk2]
    have hiStart : intCell R3 "WorkoutStartTimeUTC" =
        ((groupMin (groupKeys df) (dateKeyOf r) : Nat) : Int) := by
      rw [hR3, intCell_setV, if_neg (by decide), hR2, intCell_setV, if_pos rfl]
      show ((groupMin (groupKeys d1) (dateKeyOf R1) : Nat) : Int) = _
      rw [hK1, hdk1]
    show Value.int (intCell R3 "WorkoutEndTimeUTC" - intCell R3 "WorkoutStartTimeUTC") = _
    rw [hiEnd, hiStart]
  · rw [cellV_setV_ne _ _ _ _ (by decide), hR5, cellV_setV_self]
    have hi4 : intCell R4 "WorkoutUTCDate" = ((dateKeyOf r : Nat) : Int) := by
      rw [hR4, intCell_setV, if_neg (by decide), hR3, intCell_setV, if_neg (by decide),
        hR2, intCell_setV, if_neg (by decide), hR1, intCell_setV, if_pos rfl]
      rfl
    show Value.int ((((uniqueInOrder (wdates d4)).indexOf
      (intCell R4 "WorkoutUTCDate") : Nat) : Int) + 1) = _
    rw [hw4, hi4]
  · rw [cellV_setV_self]
    have hn5 : natCell R5 "WorkoutStartTimeUTC" = groupMin (groupKeys df) (dateKeyOf r) := by
      rw [hR5, natCell_setV, if_neg (by decide), hR4, natCell_setV, if_neg (by decide),
        hR3, natCell_setV, if_neg (by decide), hR2, natCell_setV, if_pos rfl]
      show ((groupMin (groupKeys d1) (dateKeyOf R1) : Nat) : Int).toNat = _
      rw [hK1, hdk1, Int.toNat_natCast]
    show Value.str (formatUTC (natCell R5 "WorkoutStartTimeUTC")) = _
    rw [hn5]

/-- **C2**: after session grouping every surviving row lies between its
session's start and end timestamps, the row's workout duration equals
end − start in whole seconds (the timestamps are whole seconds, so the
truncation of `total_seconds()` is exact), and all rows sharing the same
UTC calendar date carry identical session start, end and duration cells. -/
theorem c2_session_invariants (df : DF) (i : Nat) (r : Row) (hr : df.rows[i]? = some r) :
    ∃ (R : Row) (s e : Nat), (groupStage df).rows[i]? = some R ∧
      cellV R "WorkoutStartTimeUTC" = .int s ∧
      cellV R "WorkoutEndTimeUTC" = .int e ∧
      cellV R "Duration (sec)" = .int ((e : Int) - (s : Int)) ∧
      s ≤ utcOf r ∧ utcOf r ≤ e ∧
      (∀ (j : Nat) (q : Row), df.rows[j]? = some q → dateKeyOf q = dateKeyOf r →
        ∃ Q : Row, (groupStage df).rows[j]? = some Q ∧
          cellV Q "WorkoutStartTimeUTC" = .int s ∧
          cellV Q "WorkoutEndTimeUTC" = .int e ∧
          cellV Q "Duration (sec)" = .int ((e : Int) - (s : Int))) := by
  obtain ⟨R, hR, _, hs, he, hd, _, _⟩ := groupStage_cells df i r hr
  have hmemg : utcOf r ∈ (groupKeys df).filter (fun v => v / 86400 == dateKeyOf r) := by
    refine List.mem_filter.mpr ⟨?_, ?_⟩
    · exact List.mem_map.mpr ⟨r, List.getElem?_mem hr, rfl⟩
    · simp [dateKeyOf]
  refine ⟨R, groupMin (groupKeys df) (dateKeyOf r), groupMax (groupKeys df) (dateKeyOf r),
    hR, hs, he, hd, ?_, ?_, ?_⟩
  · exact minOf_le_of_mem hmemg
  · exact le_maxOf_of_mem hmemg
  · intro j q hq hdate
    obtain ⟨Q, hQ, _, hqs, hqe, hqd, _, _⟩ := groupStage_cells df j q hq
    rw [hdate] at hqs hqe hqd
    exact ⟨Q, hQ, hqs, hqe, hqd⟩

/-- Witness for C2 at a concrete two-row session. -/
theorem c2_session_invariants_witness :
    c2df.rows[0]? = some [("Timestamp", Value.int 100)] ∧
    ∃ (R : Row) (s e : Nat), (groupStage c2df).rows[0]? = some R ∧
      cellV R "WorkoutStartTimeUTC" = .int s ∧
      cellV R "WorkoutEndTimeUTC" = .int e ∧
      cellV R "Duration (sec)" = .int ((e : Int) - (s : Int)) ∧
      s ≤ utcOf [("Timestamp", Value.int 100)] ∧
      utcOf [("Timestamp", Value.int 100)] ≤ e ∧
      (∀ (j : Nat) (q : Row), c2df.rows[j]? = some q →
        dateKeyOf q = dateKeyOf [("Timestamp", Value.int 100)] →
        ∃ Q : Row, (groupStage c2df).rows[j]? = some Q ∧
          cellV Q "WorkoutStartTimeUTC" = .int s ∧
          cellV Q "WorkoutEndTimeUTC" = .int e ∧
          cellV Q "Duration (sec)" = .int ((e : Int) - (s : Int))) :=
  ⟨by decide, c2_session_invariants c2df 0 [("Timestamp", Value.int 100)] (by decide)⟩

/-! #### Workout numbering (claim C3) -/

theorem pairwise_lt_uniqueInOrder {l : List Nat} (h : l.Pairwise (· ≤ ·)) :
    (uniqueInOrder l).Pairwise (· < ·) := by
  induction l using uniqueInOrder.induct with
  | case1 => rw [uniqueInOrder]; exact List.Pairwise.nil
  | case2 x xs ih =>
    rw [uniqueInOrder]
    rcases List.pairwise_cons.mp h with ⟨hx, hxs⟩
    refine List.pairwise_cons.mpr ⟨?_, ih (hxs.filter _)⟩
    intro y hy
    have h2 := List.mem_filter.mp (mem_uniqueInOrder.mp hy)
    have hyx : y ≠ x := by simpa using h2.2
    exact (hx y h2.1).lt_of_ne (Ne.symm hyx)

theorem indexOf_le_of_sorted {l : List Nat} (hs : l.Pairwise (· < ·)) {a b : Nat}
    (ha : a ∈ l) (hb : b ∈ l) (hab : a ≤ b) : l.indexOf a ≤ l.indexOf b := by
  induction l with
  | nil => cases ha
  | cons x xs ih =>
    rcases List.pairwise_cons.mp hs with ⟨hx, hxs⟩
    by_cases hax : x = a
    · subst hax
      simp [List.indexOf_cons]
    · have ha2 : a ∈ xs := by
        rcases List.mem_cons.mp ha with h | h
        · exact absurd h.symm hax
        · exact h
      by_cases hbx : x = b
      · subst hbx
        exact absurd (lt_of_lt_of_le (hx a ha2) hab) (lt_irrefl x)
      · have hb2 : b ∈ xs := by
          rcases List.mem_cons.mp hb with h | h
          · exact absurd h.symm hbx
          · exact h
        have e1 : (x == a) = false := by simp [hax]
        have e2 : (x == b) = false := by simp [hbx]
        rw [List.indexOf_cons, List.indexOf_cons, e1, e2]
        simp only [cond_false]
        exact Nat.succ_le_succ (ih hxs ha2 hb2)

theorem indexOf_inj_of_mem {l : List Nat} {a b : Nat}
    (ha : a ∈ l) (hb : b ∈ l) (h : l.indexOf a = l.indexOf b) : a = b := by
  have hla := List.indexOf_lt_length.mpr ha
  have hlb := List.indexOf_lt_length.mpr hb
  have h2 : l[l.indexOf a]? = some a := by
    rw [List.getElem?_eq_getElem hla, List.getElem_indexOf hla]
  rw [h, List.getElem?_eq_getElem hlb, List.getElem_indexOf hlb] at h2
  exact (Option.some_inj.mp h2).symm

theorem indexOf_getElem_of_nodup {l : List Nat}
    (h : l.Nodup) (i : Nat) (hi : i < l.length) : l.indexOf l[i] = i := by
  have hmem : l[i] ∈ l := List.getElem_mem hi
  have hlt := List.indexOf_lt_length.mpr hmem
  exact (List.Nodup.getElem_inj_iff h).mp (List.getElem_indexOf hlt)

theorem uniqueInOrder_map_natCast (l : List Nat) :
    uniqueInOrder (l.map (fun n : Nat => (n : Int))) =
      (uniqueInOrder l).map (fun n : Nat => (n : Int)) := by
  induction l using uniqueInOrder.induct with
  | case1 => simp [uniqueInOrder]
  | case2 x xs ih =>
    have hf : (xs.map (fun n : Nat => (n : Int))).filter (fun y => y ≠ (x : Int)) =
        (xs.filter (fun y => y ≠ x)).map (fun n : Nat => (n : Int)) := by
      rw [List.filter_map]
      congr 1
      apply List.filter_congr
      intro y _
      show decide ((y : Int) ≠ (x : Int)) = decide (y ≠ x)
      exact decide_eq_decide.mpr (not_congr Int.natCast_inj)
    rw [List.map_cons, uniqueInOrder, uniqueInOrder, List.map_cons, hf, ih]

theorem indexOf_map_natCast (l : List Nat) (a : Nat) :
    (l.map (fun n : Nat => (n : Int))).indexOf ((a : Nat) : Int) = l.indexOf a := by
  induction l with
  | nil => rfl
  | cons x xs ih =>
    rw [List.map_cons, List.indexOf_cons, List.indexOf_cons]
    have hbeq : (((x : Nat) : Int) == ((a : Nat) : Int)) = (x == a) := by
      by_cases h : x = a <;> simp [h, Int.natCast_inj]
    rw [hbeq, ih]

/-- The `Workout #` cell, transferred from the stored integer list to the
natural-number date keys. -/
theorem wnum_nat (df : DF) (r : Row) :
    (uniqueInOrder (df.rows.map (fun q => ((dateKeyOf q : Nat) : Int)))).indexOf
      ((dateKeyOf r : Nat) : Int) =
    (uniqueInOrder (df.rows.map dateKeyOf)).indexOf (dateKeyOf r) := by
  have hmm : df.rows.map (fun q => ((dateKeyOf q : Nat) : Int)) =
      (df.rows.map dateKeyOf).map (fun n : Nat => (n : Int)) := by
    rw [List.map_map]
    rfl
  rw [hmm, uniqueInOrder_map_natCast, indexOf_map_natCast]

/-- **C3**: for timestamp-sorted rows the assigned workout numbers form the
dense sequence 1..N where N is the number of distinct UTC dates; every
number is attained; the number of a row is determined by the first
occurrence of its UTC date (rows get equal numbers exactly when they share
a UTC date) and is monotonically non-decreasing along the sorted order. -/
theorem c3_workout_numbering (df : DF)
    (hsorted : df.rows.Pairwise (fun a b => utcOf a ≤ utcOf b)) :
    ∃ N : Nat,
      N = (df.rows.map dateKeyOf).toFinset.card ∧
      (∀ (i : Nat) (r : Row), df.rows[i]? = some r →
        ∃ (R : Row) (k : Nat), (groupStage df).rows[i]? = some R ∧
          cellV R "Workout #" = .int k ∧ 1 ≤ k ∧ k ≤ N ∧
          k = (uniqueInOrder (df.rows.map dateKeyOf)).indexOf (dateKeyOf r) + 1) ∧
      (∀ k : Nat, 1 ≤ k → k ≤ N → ∃ (i : Nat) (r R : Row),
        df.rows[i]? = some r ∧ (groupStage df).rows[i]? = some R ∧
        cellV R "Workout #" = .int k) ∧
      (∀ (i j : Nat) (ri rj : Row), i ≤ j →
        df.rows[i]? = some ri → df.rows[j]? = some rj →
        (uniqueInOrder (df.rows.map dateKeyOf)).indexOf (dateKeyOf ri) ≤
          (uniqueInOrder (df.rows.map dateKeyOf)).indexOf (dateKeyOf rj)) ∧
      (∀ (i j : Nat) (ri rj : Row),
        df.rows[i]? = some ri → df.rows[j]? = some rj →
        ((uniqueInOrder (df.rows.map dateKeyOf)).indexOf (dateKeyOf ri) =
          (uniqueInOrder (df.rows.map dateKeyOf)).indexOf (dateKeyOf rj) ↔
          dateKeyOf ri = dateKeyOf rj)) := by
  have hdates : (df.rows.map dateKeyOf).Pairwise (fun a b => a ≤ b) := by
    rw [List.pairwise_map]
    exact hsorted.imp (fun h => Nat.div_le_div_right h)
  have huniq := pairwise_lt_uniqueInOrder hdates
  have hnodup := nodup_uniqueInOrder (df.rows.map dateKeyOf)
  refine ⟨(uniqueInOrder (df.rows.map dateKeyOf)).length,
    length_uniqueInOrder _, ?_, ?_, ?_, ?_⟩
  · intro i r hr
    obtain ⟨R, hR, _, _, _, _, hw, _⟩ := groupStage_cells df i r hr
    rw [wnum_nat] at hw
    have hmem : dateKeyOf r ∈ uniqueInOrder (df.rows.map dateKeyOf) :=
      mem_uniqueInOrder.mpr (List.mem_map.mpr ⟨r, List.getElem?_mem hr, rfl⟩)
    have hlt := List.indexOf_lt_length.mpr hmem
    refine ⟨R, (uniqueInOrder (df.rows.map dateKeyOf)).indexOf (dateKeyOf r) + 1,
      hR, ?_, ?_, ?_, rfl⟩
    · rw [hw]
      exact congrArg Value.int (by omega)
    · omega
    · omega
  · intro k hk1 hkN
    have hklt : k - 1 < (uniqueInOrder (df.rows.map dateKeyOf)).length := by omega
    set d := (uniqueInOrder (df.rows.map dateKeyOf))[k - 1] with hd
    have hdmem : d ∈ df.rows.map dateKeyOf :=
      mem_uniqueInOrder.mp (List.getElem_mem hklt)
    obtain ⟨r, hrmem, hrd⟩ := List.mem_map.mp hdmem
    obtain ⟨i, hi, hig⟩ := List.mem_iff_getElem.mp hrmem
    have hri : df.rows[i]? = some r := by
      rw [List.getElem?_eq_getElem hi, hig]
    obtain ⟨R, hR, _, _, _, _, hw, _⟩ := groupStage_cells df i r hri
    rw [wnum_nat] at hw
    refine ⟨i, r, R, hri, hR, ?_⟩
    rw [hw, hrd, hd, indexOf_getElem_of_nodup hnodup]
    exact congrArg Value.int (by omega)
  · intro i j ri rj hij hi hj
    rcases lt_or_eq_of_le hij with hlt | heq
    · obtain ⟨hi2, hie⟩ := List.getElem?_eq_some.mp hi
      obtain ⟨hj2, hje⟩ := List.getElem?_eq_some.mp hj
      have hle : utcOf ri ≤ utcOf rj := by
        have := List.pairwise_iff_getElem.mp hsorted i j hi2 hj2 hlt
        rwa [hie, hje] at this
      have hdk : dateKeyOf ri ≤ dateKeyOf rj := Nat.div_le_div_right hle
      exact indexOf_le_of_sorted huniq
        (mem_uniqueInOrder.mpr (List.mem_map.mpr ⟨ri, List.getElem?_mem hi, rfl⟩))
        (mem_uniqueInOrder.mpr (List.mem_map.mpr ⟨rj, List.getElem?_mem hj, rfl⟩)) hdk
    · subst heq
      rw [hi] at hj
      cases hj
      exact le_refl _
  · intro i j ri rj hi hj
    constructor
    · intro he
      exact indexOf_inj_of_mem
        (mem_uniqueInOrder.mpr (List.mem_map.mpr ⟨ri, List.getElem?_mem hi, rfl⟩))
        (mem_uniqueInOrder.mpr (List.mem_map.mpr ⟨rj, List.getElem?_mem hj, rfl⟩)) he
    · intro he
      rw [he]

/-- Witness for C3 at a concrete sorted three-row table spanning two UTC
dates. -/
theorem c3_workout_numbering_witness :
    c3df.rows.Pairwise (fun a b => utcOf a ≤ utcOf b) ∧
    ∃ N : Nat,
      N = (c3df.rows.map dateKeyOf).toFinset.card ∧
      (∀ (i : Nat) (r : Row), c3df.rows[i]? = some r →
        ∃ (R : Row) (k : Nat), (groupStage c3df).rows[i]? = some R ∧
          cellV R "Workout #" = .int k ∧ 1 ≤ k ∧ k ≤ N ∧
          k = (uniqueInOrder (c3df.rows.map dateKeyOf)).indexOf (dateKeyOf r) + 1) ∧
      (∀ k : Nat, 1 ≤ k → k ≤ N → ∃ (i : Nat) (r R : Row),
        c3df.rows[i]? = some r ∧ (groupStage c3df).rows[i]? = some R ∧
        cellV R "Workout #" = .int k) ∧
      (∀ (i j : Nat) (ri rj : Row), i ≤ j →
        c3df.rows[i]? = some ri → c3df.rows[j]? = some rj →
        (uniqueInOrder (c3df.rows.map dateKeyOf)).indexOf (dateKeyOf ri) ≤
          (uniqueInOrder (c3df.rows.map dateKeyOf)).indexOf (dateKeyOf rj)) ∧
      (∀ (i j : Nat) (ri rj : Row),
        c3df.rows[i]? = some ri → c3df.rows[j]? = some rj →
        ((uniqueInOrder (c3df.rows.map dateKeyOf)).indexOf (dateKeyOf ri) =
          (uniqueInOrder (c3df.rows.map dateKeyOf)).indexOf (dateKeyOf rj) ↔
          dateKeyOf ri = dateKeyOf rj)) :=
  ⟨by decide, c3_workout_numbering c3df (by decide)⟩

/-! ### Claims C1, C4 and C9: timestamp parsing, localization and aborts -/

theorem daysFromCivil_pos (y m d : Nat) (hy : 1678 ≤ y) : 1 ≤ daysFromCivil y m d := by
  unfold daysFromCivil
  simp only []
  have hy2 : 1600 ≤ (if m ≤ 2 then y - 1 else y) := by split <;> omega
  have hera : 4 ≤ (if m ≤ 2 then y - 1 else y) / 400 :=
    (Nat.le_div_iff_mul_le (by norm_num)).mpr hy2
  omega

theorem parse_expr_lower {yv mov dv hv miv sev : Nat} (h : 1678 ≤ yv) :
    7200 ≤ 86400 * daysFromCivil yv mov dv + 3600 * hv + 60 * miv + sev := by
  have := daysFromCivil_pos yv mov dv h
  omega

/-- Every timestamp that parses lies far above the epoch (its year is at
least 1678), in particular at least two hours after it. -/
theorem parseTS_lower {s : String} {n : Nat} (h : parseTS s = some n) : 7200 ≤ n := by
  unfold parseTS at h
  repeat' split at h
  all_goals try cases h
  case _ hguard => exact parse_expr_lower hguard.1

theorem goodRow_spec {r : Row} (h : goodRow r = true) :
    ∃ (d t : String) (n : Nat), cellV r "Date" = .str d ∧ cellV r "Time" = .str t ∧
      parseTS (d ++ " " ++ t) = some n ∧ (osloClass n).isBoundary = false := by
  unfold goodRow at h
  cases hd : cellV r "Date" with
  | str d =>
    cases ht : cellV r "Time" with
    | str t =>
      simp only [hd, ht] at h
      cases hp : parseTS (d ++ " " ++ t) with
      | some n =>
        simp only [hp, Bool.not_eq_true'] at h
        exact ⟨d, t, n, rfl, rfl, hp, h⟩
      | none => simp only [hp] at h; cases h
    | int n => simp only [hd, ht] at h; cases h
    | float q => simp only [hd, ht] at h; cases h
    | nan => simp only [hd, ht] at h; cases h
  | int n => simp only [hd] at h; cases h
  | float q => simp only [hd] at h; cases h
  | nan => simp only [hd] at h; cases h

theorem goodRow_naiveOf {r : Row} (h : goodRow r = true) :
    naiveOf r = some (some (theNaive r)) ∧ (osloClass (theNaive r)).isBoundary = false := by
  obtain ⟨d, t, n, hd, ht, hp, hb⟩ := goodRow_spec h
  have hn : naiveOf r = some (some n) := by
    unfold naiveOf concatDT
    rw [hd, ht]
    simp [hp]
  have htn : theNaive r = n := by
    unfold theNaive
    rw [hn]
    rfl
  rw [htn]
  exact ⟨hn, hb⟩

theorem filterMap_eq_map_of_some {α β : Type} {l : List α} {f : α → Option β} {g : α → β}
    (h : ∀ a ∈ l, f a = some (g a)) : l.filterMap f = l.map g := by
  induction l with
  | nil => rfl
  | cons x xs ih =>
    rw [List.filterMap_cons, h x (List.mem_cons_self x xs), List.map_cons,
      ih (fun a ha => h a (List.mem_cons_of_mem x ha))]

theorem naiveSecsOf_stamped (r : Row) (n : Nat) :
    naiveSecsOf (setV r "NaiveTimestamp" (.int n)) = n := by
  unfold naiveSecsOf
  rw [cellV_setV_self]
  simp

theorem timestampPhase_eq (df : DF) :
    timestampPhase df = match stampStage df with
      | .error e => .error e
      | .ok b => localizeStage b := by
  unfold timestampPhase
  cases stampStage df <;> rfl

/-- **C1**: every row whose `Date` and `Time` parse in the fixed format
and whose local timestamp is off the DST boundaries is localized without
aborting the run, and its canonical UTC timestamp is the local wall-clock
time minus the seasonal Europe/Oslo offset: one hour in winter, two hours
in summer. -/
theorem c1_utc_offset (df : DF) (hgood : ∀ r ∈ df.rows, goodRow r = true) :
    ∃ out, timestampPhase df = .ok out ∧ out.rows.length = df.rows.length ∧
      ∀ (i : Nat) (r : Row), df.rows[i]? = some r →
        ∃ (d t : String) (n : Nat),
          cellV r "Date" = .str d ∧ cellV r "Time" = .str t ∧
          parseTS (d ++ " " ++ t) = some n ∧
          ∃ R, out.rows[i]? = some R ∧
            ((osloClass n = .winter ∧ cellV R "Timestamp" = .int (n - 3600)) ∨
             (osloClass n = .summer ∧ cellV R "Timestamp" = .int (n - 7200))) := by
  have hall : df.rows.all (fun r => (naiveOf r).isSome) = true := by
    rw [List.all_eq_true]
    intro r hr
    rw [(goodRow_naiveOf (hgood r hr)).1]
    rfl
  have hstamp : stampStage df = .ok
      { cols := if df.cols.contains "NaiveTimestamp" then df.cols
                else df.cols ++ ["NaiveTimestamp"],
        rows := df.rows.map (fun r => setV r "NaiveTimestamp" (.int (theNaive r))) } := by
    unfold stampStage
    rw [if_pos hall]
    congr 1
    apply congrArg
    apply filterMap_eq_map_of_some
    intro a ha
    unfold stampRow
    rw [(goodRow_naiveOf (hgood a ha)).1]
  set b : DF :=
    { cols := if df.cols.contains "NaiveTimestamp" then df.cols
              else df.cols ++ ["NaiveTimestamp"],
      rows := df.rows.map (fun r => setV r "NaiveTimestamp" (.int (theNaive r))) } with hb
  have hsecs : ∀ q ∈ b.rows, naiveSecsOf q ∈ df.rows.map theNaive := by
    intro q hq
    obtain ⟨r, hr, hrq⟩ := List.mem_map.mp hq
    rw [← hrq, naiveSecsOf_stamped]
    exact List.mem_map.mpr ⟨r, hr, rfl⟩
  have hfind : b.rows.find? (fun q => (osloClass (naiveSecsOf q)).isBoundary) = none := by
    rw [List.find?_eq_none]
    intro q hq
    obtain ⟨r, hr, hrq⟩ := List.mem_map.mp hq
    rw [← hrq, naiveSecsOf_stamped]
    rw [(goodRow_naiveOf (hgood r hr)).2]
    exact Bool.false_ne_true
  have hloc : localizeStage b = .ok ((b.setCol "LocalizedTimestamp"
      (fun q => .int (naiveSecsOf q))).setCol "Timestamp"
      (fun q => .int (osloUtc (naiveSecsOf q)))) := by
    unfold localizeStage
    rw [hfind]
  refine ⟨(b.setCol "LocalizedTimestamp" (fun q => .int (naiveSecsOf q))).setCol
    "Timestamp" (fun q => .int (osloUtc (naiveSecsOf q))), ?_, ?_, ?_⟩
  · rw [timestampPhase_eq, hstamp]
    exact hloc
  · simp [rows_setCol, hb]
  · intro i r hr
    obtain ⟨d, t, n, hd, ht, hp, hbd⟩ := goodRow_spec (hgood r (List.getElem?_mem hr))
    have hn : theNaive r = n := by
      have := (goodRow_naiveOf (hgood r (List.getElem?_mem hr))).1
      unfold theNaive
      unfold naiveOf concatDT at this ⊢
      rw [hd, ht] at this ⊢
      simp [hp]
    refine ⟨d, t, n, hd, ht, hp, ?_⟩
    have hb1 : b.rows[i]? = some (setV r "NaiveTimestamp" (.int (theNaive r))) := by
      rw [hb]
      show (df.rows.map _)[i]? = _
      rw [List.getElem?_map, hr]
      rfl
    have h2 := setCol_rows_getElem b "LocalizedTimestamp"
      (fun q => .int (naiveSecsOf q)) i _ hb1
    have h3 := setCol_rows_getElem _ "Timestamp"
      (fun q => .int (osloUtc (naiveSecsOf q))) i _ h2
    refine ⟨_, h3, ?_⟩
    have hns : naiveSecsOf (setV (setV r "NaiveTimestamp" (.int (theNaive r)))
        "LocalizedTimestamp" (.int (naiveSecsOf (setV r "NaiveTimestamp"
          (.int (theNaive r)))))) = n := by
      rw [naiveSecsOf_setV _ _ _ (by decide), naiveSecsOf_stamped, hn]
    rw [cellV_setV_self]
    beta_reduce
    rw [hns]
    unfold osloUtc
    have hlow := parseTS_lower hp
    cases hcl : osloClass n with
    | winter =>
      left
      rw [if_neg (by decide)]
      exact ⟨rfl, congrArg Value.int (by omega)⟩
    | summer =>
      right
      rw [if_pos rfl]
      exact ⟨rfl, congrArg Value.int (by omega)⟩
    | ambiguous => rw [hcl] at hbd; simp [Tz.isBoundary] at hbd
    | nonexistent => rw [hcl] at hbd; simp [Tz.isBoundary] at hbd

/-- Witness for C1 at one winter row and one summer row. -/
theorem c1_utc_offset_witness :
    (∀ r ∈ c1df.rows, goodRow r = true) ∧
    ∃ out, timestampPhase c1df = .ok out ∧ out.rows.length = c1df.rows.length ∧
      ∀ (i : Nat) (r : Row), c1df.rows[i]? = some r →
        ∃ (d t : String) (n : Nat),
          cellV r "Date" = .str d ∧ cellV r "Time" = .str t ∧
          parseTS (d ++ " " ++ t) = some n ∧
          ∃ R, out.rows[i]? = some R ∧
            ((osloClass n = .winter ∧ cellV R "Timestamp" = .int (n - 3600)) ∨
             (osloClass n = .summer ∧ cellV R "Timestamp" = .int (n - 7200))) :=
  ⟨by decide, c1_utc_offset c1df (by decide)⟩

/-! #### Dissections of the converter pipeline -/

theorem finalize_astype_none {c : DF} {hs : List String} {m : List (Value × Value)}
    (h : astypeStage (applyFill (addMissing (apply_exercise_mappings
      (renameStage (cardioStage (groupStage (sortStage c)))) m "Exercise Name") hs)) = none) :
    finalizeStage c hs m = .error .castError := by
  unfold finalizeStage
  rw [h]

theorem finalize_astype_some {c : DF} {hs : List String} {m : List (Value × Value)} {j : DF}
    (h : astypeStage (applyFill (addMissing (apply_exercise_mappings
      (renameStage (cardioStage (groupStage (sortStage c)))) m "Exercise Name") hs)) = some j) :
    finalizeStage c hs m =
      (if (hs.filter (fun col => !j.cols.contains col)).isEmpty then .ok (j.select hs)
       else .error (.missingFinalCols (hs.filter (fun col => !j.cols.contains col)))) := by
  unfold finalizeStage
  rw [h]

theorem convert_ok_chain {gymrun : DF} {hs : List String} {m : List (Value × Value)}
    {a c : DF} (h1 : checkEssential gymrun = .ok a) (h2 : timestampPhase a = .ok c) :
    convert_gymrun_to_strong gymrun hs m = finalizeStage c hs m := by
  unfold convert_gymrun_to_strong
  rw [h1]
  show (match timestampPhase a with
    | .error e => (Except.error e : Except ConvError DF)
    | .ok c => finalizeStage c hs m) = _
  rw [h2]

theorem convert_checkEssential_error {gymrun : DF} {hs : List String}
    {m : List (Value × Value)} {e : ConvError} (h : checkEssential gymrun = .error e) :
    convert_gymrun_to_strong gymrun hs m = .error e := by
  unfold convert_gymrun_to_strong
  rw [h]

theorem convert_tsPhase_error {gymrun : DF} {hs : List String} {m : List (Value × Value)}
    {a : DF} {e : ConvError} (h1 : checkEssential gymrun = .ok a)
    (h2 : timestampPhase a = .error e) :
    convert_gymrun_to_strong gymrun hs m = .error e := by
  unfold convert_gymrun_to_strong
  rw [h1]
  show (match timestampPhase a with
    | .error e => (Except.error e : Except ConvError DF)
    | .ok c => finalizeStage c hs m) = _
  rw [h2]

theorem checkEssential_ok {df a : DF} (h : checkEssential df = .ok a) : a = df := by
  unfold checkEssential at h
  split at h
  · cases h; rfl
  · cases h

theorem checkEssential_ok_of_all {df : DF}
    (hess : essentialCols.all (fun c => df.cols.contains c) = true) :
    checkEssential df = .ok df := by
  unfold checkEssential
  have hfil : essentialCols.filter (fun c => !df.cols.contains c) = [] := by
    rw [List.filter_eq_nil_iff]
    intro c hc
    rw [List.all_eq_true] at hess
    rw [hess c hc]
    simp
  rw [hfil]
  rfl

theorem stampStage_ok_of_all {df : DF}
    (hall : df.rows.all (fun r => (naiveOf r).isSome) = true) :
    stampStage df = .ok
      { cols := if df.cols.contains "NaiveTimestamp" then df.cols
                else df.cols ++ ["NaiveTimestamp"],
        rows := df.rows.filterMap stampRow } := by
  unfold stampStage
  rw [if_pos hall]

/-- **C4**: if any parseable row's local timestamp falls in a repeated
(fall-back) or skipped (spring-forward) Europe/Oslo hour, the converter
aborts the whole run with an error reporting an offending boundary
timestamp and produces no output table at all — a whole-batch abort, not a
per-row skip. -/
theorem c4_dst_abort (df : DF) (hs : List String) (m : List (Value × Value))
    (hess : essentialCols.all (fun c => df.cols.contains c) = true)
    (hconcat : ∀ r ∈ df.rows, (naiveOf r).isSome = true)
    (hbad : ∃ r ∈ df.rows, ∃ n : Nat, naiveOf r = some (some n) ∧
      (osloClass n).isBoundary = true) :
    ∃ t : Nat, (osloClass t).isBoundary = true ∧
      (convert_gymrun_to_strong df hs m = .error (.ambiguousTime t) ∨
       convert_gymrun_to_strong df hs m = .error (.nonExistentTime t)) := by
  have hall : df.rows.all (fun r => (naiveOf r).isSome) = true := by
    rw [List.all_eq_true]
    intro r hr
    have := hconcat r hr
    simpa using this
  obtain ⟨r, hrmem, n, hno, hnb⟩ := hbad
  have hmem : setV r "NaiveTimestamp" (.int n) ∈ df.rows.filterMap stampRow := by
    apply List.mem_filterMap.mpr
    refine ⟨r, hrmem, ?_⟩
    unfold stampRow
    rw [hno]
  have hbmem : ∃ q ∈ df.rows.filterMap stampRow,
      (osloClass (naiveSecsOf q)).isBoundary = true := by
    refine ⟨setV r "NaiveTimestamp" (.int n), hmem, ?_⟩
    rw [naiveSecsOf_stamped]
    exact hnb
  set b : DF :=
    { cols := if df.cols.contains "NaiveTimestamp" then df.cols
              else df.cols ++ ["NaiveTimestamp"],
      rows := df.rows.filterMap stampRow } with hb
  cases hf : b.rows.find? (fun q => (osloClass (naiveSecsOf q)).isBoundary) with
  | none =>
    obtain ⟨q, hq, hqb⟩ := hbmem
    have := List.find?_eq_none.mp hf q hq
    rw [hqb] at this
    cases this rfl
  | some q =>
    have hqb : (osloClass (naiveSecsOf q)).isBoundary = true := by
      have h2 := List.find?_some hf
      simpa using h2
    refine ⟨naiveSecsOf q, hqb, ?_⟩
    have hloc : localizeStage b =
        (if osloClass (naiveSecsOf q) = .ambiguous then
          Except.error (.ambiguousTime (naiveSecsOf q))
        else Except.error (.nonExistentTime (naiveSecsOf q))) := by
      unfold localizeStage
      rw [hf]
    by_cases hamb : osloClass (naiveSecsOf q) = .ambiguous
    · left
      have hphase : timestampPhase df = .error (.ambiguousTime (naiveSecsOf q)) := by
        rw [timestampPhase_eq, stampStage_ok_of_all hall]
        show localizeStage b = _
        rw [hloc, if_pos hamb]
      exact convert_tsPhase_error (checkEssential_ok_of_all hess) hphase
    · right
      have hphase : timestampPhase df = .error (.nonExistentTime (naiveSecsOf q)) := by
        rw [timestampPhase_eq, stampStage_ok_of_all hall]
        show localizeStage b = _
        rw [hloc, if_neg hamb]
      exact convert_tsPhase_error (checkEssential_ok_of_all hess) hphase

/-- Witness for C4: a row in the repeated fall-back hour (2024-10-27
02:30 local) aborts the whole conversion. -/
theorem c4_dst_abort_witness :
    essentialCols.all (fun c => c4df.cols.contains c) = true ∧
    (∀ r ∈ c4df.rows, (naiveOf r).isSome = true) ∧
    (∃ r ∈ c4df.rows, ∃ n : Nat, naiveOf r = some (some n) ∧
      (osloClass n).isBoundary = true) ∧
    ∃ t : Nat, (osloClass t).isBoundary = true ∧
      (convert_gymrun_to_strong c4df ["Date"] [] = .error (.ambiguousTime t) ∨
       convert_gymrun_to_strong c4df ["Date"] [] = .error (.nonExistentTime t)) :=
  ⟨by decide, by decide, ⟨c4row, by decide, theNaive c4row, by decide, by decide⟩,
    c4_dst_abort c4df ["Date"] [] (by decide) (by decide)
      ⟨c4row, by decide, theNaive c4row, by decide, by decide⟩⟩

/-! #### Row counts through the pipeline (claim C9) -/

theorem length_rows_setCol (df : DF) (c : String) (f : Row → Value) :
    (df.setCol c f).rows.length = df.rows.length := by
  rw [rows_setCol, List.length_map]

theorem length_rows_sortStage (df : DF) : (sortStage df).rows.length = df.rows.length := by
  unfold sortStage
  exact length_sortRows _

theorem length_rows_groupStage (df : DF) :
    (groupStage df).rows.length = df.rows.length := by
  simp [groupStage, length_rows_setCol]

theorem length_rows_cardioStage (df : DF) :
    (cardioStage df).rows.length = df.rows.length := by
  unfold cardioStage
  simp only []
  split <;> split <;> simp [length_rows_setCol]

theorem length_rows_renameStage (df : DF) :
    (renameStage df).rows.length = df.rows.length := by
  unfold renameStage
  exact List.length_map _ _

theorem length_rows_applyExercise (df : DF) (m : List (Value × Value)) (col : String) :
    (apply_exercise_mappings df m col).rows.length = df.rows.length := by
  unfold apply_exercise_mappings
  split
  · exact length_rows_setCol _ _ _
  · rfl

theorem length_rows_addMissing (df : DF) (hs : List String) :
    (addMissing df hs).rows.length = df.rows.length := by
  induction hs generalizing df with
  | nil => rfl
  | cons c cs ih =>
    show (addMissing (if df.cols.contains c then df
      else df.setCol c (fun _ => defaultFor c)) cs).rows.length = _
    rw [ih]
    split
    · rfl
    · exact length_rows_setCol _ _ _

theorem length_rows_fillFold (l : List (String × Value)) (df : DF) :
    (l.foldl (fun d p => if d.cols.contains p.1 then
      d.setCol p.1 (fun r => fillCell p.1 p.2 (cellV r p.1)) else d) df).rows.length =
    df.rows.length := by
  induction l generalizing df with
  | nil => rfl
  | cons p ps ih =>
    rw [List.foldl_cons, ih]
    split
    · exact length_rows_setCol _ _ _
    · rfl

theorem length_rows_applyFill (df : DF) : (applyFill df).rows.length = df.rows.length :=
  length_rows_fillFold fillDefaults df

theorem length_rows_select (df : DF) (hs : List String) :
    (df.select hs).rows.length = df.rows.length := by
  unfold DF.select
  exact List.length_map _ _

theorem option_bind_eq_some {α β : Type} {x : Option α} {f : α → Option β} {b : β}
    (h : x >>= f = some b) : ∃ a, x = some a ∧ f a = some b := by
  cases x with
  | none => simp at h
  | some a => exact ⟨a, rfl, h⟩

theorem length_astypeCol {df : DF} {c : String} {cast : Value → Option Value} {out : DF}
    (h : astypeCol df c cast = some out) : out.rows.length = df.rows.length := by
  unfold astypeCol at h
  split at h
  · cases h
    exact length_rows_setCol _ _ _
  · simp at h

theorem length_astypeStage {df out : DF} (h : astypeStage df = some out) :
    out.rows.length = df.rows.length := by
  unfold astypeStage at h
  obtain ⟨a, ha, h⟩ := option_bind_eq_some h
  obtain ⟨b, hb, h⟩ := option_bind_eq_some h
  obtain ⟨c, hc, h⟩ := option_bind_eq_some h
  obtain ⟨d, hd, h⟩ := option_bind_eq_some h
  obtain ⟨e, he, h⟩ := option_bind_eq_some h
  rw [length_astypeCol h, length_astypeCol he, length_astypeCol hd, length_astypeCol hc,
    length_astypeCol hb, length_astypeCol ha]

theorem length_final_chain (c : DF) (hs : List String) (m : List (Value × Value)) :
    (applyFill (addMissing (apply_exercise_mappings (renameStage (cardioStage (groupStage
      (sortStage c)))) m "Exercise Name") hs)).rows.length = c.rows.length := by
  rw [length_rows_applyFill, length_rows_addMissing, length_rows_applyExercise,
    length_rows_renameStage, length_rows_cardioStage, length_rows_groupStage]
  exact length_rows_sortStage c

theorem localizeStage_ok_length {b c : DF} (h : localizeStage b = .ok c) :
    c.rows.length = b.rows.length := by
  unfold localizeStage at h
  split at h
  · split at h <;> simp at h
  · cases h
    rw [length_rows_setCol, length_rows_setCol]

theorem stamp_filterMap (l : List Row) (h : ∀ r ∈ l, (naiveOf r).isSome = true) :
    l.filterMap stampRow =
      (l.filter (fun r => ((naiveOf r).getD none).isSome)).map
        (fun r => setV r "NaiveTimestamp" (.int (theNaive r))) := by
  induction l with
  | nil => rfl
  | cons x xs ih =>
    have hx := h x (List.mem_cons_self x xs)
    have ihx := ih (fun a ha => h a (List.mem_cons_of_mem x ha))
    rw [List.filterMap_cons, List.filter_cons]
    cases hno : naiveOf x with
    | none => rw [hno] at hx; cases hx
    | some o =>
      cases o with
      | none =>
        have h1 : stampRow x = none := by unfold stampRow; rw [hno]
        simp [h1, ihx]
      | some n =>
        have h1 : stampRow x = some (setV x "NaiveTimestamp" (.int n)) := by
          unfold stampRow; rw [hno]
        have h3 : theNaive x = n := by unfold theNaive; rw [hno]; rfl
        simp [h1, ihx, h3]

/-- **C9**: rows whose `Date`+`Time` fail to parse in the fixed format are
silently dropped — the run does not abort, the surviving table consists
exactly of the rows that parsed (annotated with their timestamp), and any
successful conversion outputs exactly one row per parseable source row. -/
theorem c9_parse_failures_dropped (df : DF)
    (hconcat : ∀ r ∈ df.rows, (naiveOf r).isSome = true) :
    ∃ out, stampStage df = .ok out ∧
      out.rows = (df.rows.filter (fun r => ((naiveOf r).getD none).isSome)).map
        (fun r => setV r "NaiveTimestamp" (.int (theNaive r))) ∧
      ∀ (hs : List String) (m : List (Value × Value)) (final : DF),
        convert_gymrun_to_strong df hs m = .ok final →
        final.rows.length =
          (df.rows.filter (fun r => ((naiveOf r).getD none).isSome)).length := by
  have hall : df.rows.all (fun r => (naiveOf r).isSome) = true :=
    List.all_eq_true.mpr (fun r hr => hconcat r hr)
  refine ⟨_, stampStage_ok_of_all hall, stamp_filterMap df.rows hconcat, ?_⟩
  intro hs m final hconv
  cases hchk : checkEssential df with
  | error e =>
    rw [convert_checkEssential_error hchk] at hconv
    simp at hconv
  | ok a =>
    have ha : a = df := checkEssential_ok hchk
    subst ha
    cases hph : timestampPhase a with
    | error e =>
      rw [convert_tsPhase_error hchk hph] at hconv
      simp at hconv
    | ok c =>
      rw [convert_ok_chain hchk hph] at hconv
      have hlen_c : c.rows.length =
          (a.rows.filter (fun r => ((naiveOf r).getD none).isSome)).length := by
        rw [timestampPhase_eq, stampStage_ok_of_all hall] at hph
        have hph2 : localizeStage
            { cols := if a.cols.contains "NaiveTimestamp" then a.cols
                      else a.cols ++ ["NaiveTimestamp"],
              rows := a.rows.filterMap stampRow } = .ok c := hph
        rw [localizeStage_ok_length hph2]
        show (a.rows.filterMap stampRow).length = _
        rw [stamp_filterMap a.rows hconcat, List.length_map]
      cases ha2 : astypeStage (applyFill (addMissing (apply_exercise_mappings
          (renameStage (cardioStage (groupStage (sortStage c)))) m "Exercise Name") hs)) with
      | none =>
        rw [finalize_astype_none ha2] at hconv
        simp at hconv
      | some j =>
        rw [finalize_astype_some ha2] at hconv
        split at hconv
        · cases hconv
          rw [length_rows_select, length_astypeStage ha2, length_final_chain]
          exact hlen_c
        · simp at hconv

/-- Witness for C9: of three rows, only the first parses; the other two
are dropped without aborting. -/
theorem c9_parse_failures_dropped_witness :
    (∀ r ∈ c9df.rows, (naiveOf r).isSome = true) ∧
    ∃ out, stampStage c9df = .ok out ∧
      out.rows = (c9df.rows.filter (fun r => ((naiveOf r).getD none).isSome)).map
        (fun r => setV r "NaiveTimestamp" (.int (theNaive r))) ∧
      ∀ (hs : List String) (m : List (Value × Value)) (final : DF),
        convert_gymrun_to_strong c9df hs m = .ok final →
        final.rows.length =
          (c9df.rows.filter (fun r => ((naiveOf r).getD none).isSome)).length :=
  ⟨by decide, c9_parse_failures_dropped c9df (by decide)⟩

/-! #### The defaulting pass (claim C6) -/

theorem contains_append (l1 l2 : List String) (x : String) :
    (l1 ++ l2).contains x = (l1.contains x || l2.contains x) := by
  simp [List.contains_eq_any_beq, List.any_append]

theorem cols_fillFold (l : List (String × Value)) (df : DF) :
    (l.foldl (fun d p => if d.cols.contains p.1 then
      d.setCol p.1 (fun q => fillCell p.1 p.2 (cellV q p.1)) else d) df).cols = df.cols := by
  induction l generalizing df with
  | nil => rfl
  | cons p ps ih =>
    rw [List.foldl_cons, ih]
    split
    next h => exact cols_setCol_of_contains _ _ _ h
    next h => rfl

theorem addMissing_cons (df : DF) (c0 : String) (cs : List String) :
    addMissing df (c0 :: cs) =
      addMissing (if df.cols.contains c0 then df
        else df.setCol c0 (fun _ => defaultFor c0)) cs := rfl

theorem cols_addMissing_contains (hs : List String) (df : DF) (c : String) :
    (addMissing df hs).cols.contains c = (df.cols.contains c || hs.contains c) := by
  induction hs generalizing df with
  | nil =>
    show df.cols.contains c = (df.cols.contains c || false)
    rw [Bool.or_false]
  | cons c0 cs ih =>
    rw [addMissing_cons]
    by_cases h0 : df.cols.contains c0 = true
    · rw [if_pos h0, ih, List.contains_cons]
      by_cases hc : c = c0
      · subst hc
        rw [h0]
        simp
      · have hcf : (c == c0) = false := by simp [hc]
        rw [hcf, Bool.false_or]
    · rw [if_neg h0, ih, contains_cols_setCol, List.contains_cons, Bool.or_assoc]

theorem addMissing_cellV_incol (hs : List String) (df : DF) (i : Nat) (r r' : Row)
    (hr : df.rows[i]? = some r) (hr' : (addMissing df hs).rows[i]? = some r')
    (c : String) (hc : df.cols.contains c = true) : cellV r' c = cellV r c := by
  induction hs generalizing df r with
  | nil =>
    have h2 : df.rows[i]? = some r' := hr'
    rw [hr] at h2
    cases h2
    rfl
  | cons c0 cs ih =>
    rw [addMissing_cons] at hr'
    by_cases h0 : df.cols.contains c0 = true
    · rw [if_pos h0] at hr'
      exact ih df r hr hr' hc
    · rw [if_neg h0] at hr'
      have hne : c ≠ c0 := fun he => h0 (he ▸ hc)
      have hrm := setCol_rows_getElem df c0 (fun _ => defaultFor c0) i r hr
      have hc2 : (df.setCol c0 (fun _ => defaultFor c0)).cols.contains c = true := by
        rw [contains_cols_setCol, hc]
        rfl
      have h3 := ih (df.setCol c0 (fun _ => defaultFor c0)) (setV r c0 (defaultFor c0))
        hrm hr' hc2
      rw [h3, cellV_setV_ne r c0 c (defaultFor c0) hne]

theorem addMissing_cellV_new (hs : List String) (df : DF) (i : Nat) (r r' : Row)
    (hr : df.rows[i]? = some r) (hr' : (addMissing df hs).rows[i]? = some r')
    (c : String) (hc : df.cols.contains c = false) (hin : hs.contains c = true) :
    cellV r' c = defaultFor c := by
  induction hs generalizing df r with
  | nil => simp at hin
  | cons c0 cs ih =>
    rw [addMissing_cons] at hr'
    by_cases hcc : c = c0
    · subst hcc
      rw [if_neg (by rw [hc]; decide)] at hr'
      have hrm := setCol_rows_getElem df c (fun _ => defaultFor c) i r hr
      have hc2 : (df.setCol c (fun _ => defaultFor c)).cols.contains c = true := by
        rw [contains_cols_setCol]
        simp
      have h3 := addMissing_cellV_incol cs (df.setCol c (fun _ => defaultFor c)) i
        (setV r c (defaultFor c)) r' hrm hr' c hc2
      rw [h3, cellV_setV_self]
    · have hcs : cs.contains c = true := by
        rw [List.contains_cons] at hin
        have hcf : (c == c0) = false := by simp [hcc]
        rw [hcf, Bool.false_or] at hin
        exact hin
      by_cases h0 : df.cols.contains c0 = true
      · rw [if_pos h0] at hr'
        exact ih df r hr hr' hc hcs
      · rw [if_neg h0] at hr'
        have hrm := setCol_rows_getElem df c0 (fun _ => defaultFor c0) i r hr
        have hc2 : (df.setCol c0 (fun _ => defaultFor c0)).cols.contains c = false := by
          rw [contains_cols_setCol, hc, Bool.false_or]
          simp [hcc]
        exact ih (df.setCol c0 (fun _ => defaultFor c0)) (setV r c0 (defaultFor c0))
          hrm hr' hc2 hcs

theorem fillFold_cellV_notkey (l : List (String × Value)) (df : DF) (i : Nat) (r r' : Row)
    (hr : df.rows[i]? = some r)
    (hr' : (l.foldl (fun d p => if d.cols.contains p.1 then
      d.setCol p.1 (fun q => fillCell p.1 p.2 (cellV q p.1)) else d) df).rows[i]? = some r')
    (c : String) (hk : ∀ p ∈ l, p.1 ≠ c) : cellV r' c = cellV r c := by
  induction l generalizing df r with
  | nil =>
    have h2 : df.rows[i]? = some r' := hr'
    rw [hr] at h2
    cases h2
    rfl
  | cons p ps ih =>
    rw [List.foldl_cons] at hr'
    have hr'2 : (ps.foldl (fun d p => if d.cols.contains p.1 then
        d.setCol p.1 (fun q => fillCell p.1 p.2 (cellV q p.1)) else d)
        (if df.cols.contains p.1 then
          df.setCol p.1 (fun q => fillCell p.1 p.2 (cellV q p.1)) else df)).rows[i]? =
        some r' := hr'
    have hne : c ≠ p.1 := Ne.symm (hk p (List.mem_cons_self p ps))
    have hk2 : ∀ q ∈ ps, q.1 ≠ c := fun q hq => hk q (List.mem_cons_of_mem p hq)
    by_cases h0 : df.cols.contains p.1 = true
    · rw [if_pos h0] at hr'2
      have hrm := setCol_rows_getElem df p.1 (fun q => fillCell p.1 p.2 (cellV q p.1)) i r hr
      have h3 := ih (df.setCol p.1 (fun q => fillCell p.1 p.2 (cellV q p.1)))
        (setV r p.1 (fillCell p.1 p.2 (cellV r p.1))) hrm hr'2 hk2
      rw [h3, cellV_setV_ne r p.1 c (fillCell p.1 p.2 (cellV r p.1)) hne]
    · rw [if_neg h0] at hr'2
      exact ih df r hr hr'2 hk2

theorem fillFold_cellV_key (l1 l2 : List (String × Value)) (c : String) (dv : Value)
    (df : DF) (i : Nat) (r r' : Row) (hr : df.rows[i]? = some r)
    (hr' : ((l1 ++ (c, dv) :: l2).foldl (fun d p => if d.cols.contains p.1 then
      d.setCol p.1 (fun q => fillCell p.1 p.2 (cellV q p.1)) else d) df).rows[i]? = some r')
    (hcols : df.cols.contains c = true)
    (h1 : ∀ p ∈ l1, p.1 ≠ c) (h2 : ∀ p ∈ l2, p.1 ≠ c) :
    cellV r' c = fillCell c dv (cellV r c) := by
  rw [List.foldl_append, List.foldl_cons] at hr'
  have hcond : (l1.foldl (fun d p => if d.cols.contains p.1 then
      d.setCol p.1 (fun q => fillCell p.1 p.2 (cellV q p.1)) else d) df).cols.contains c =
      true := by
    rw [cols_fillFold]
    exact hcols
  have hr2 : (l2.foldl (fun d p => if d.cols.contains p.1 then
      d.setCol p.1 (fun q => fillCell p.1 p.2 (cellV q p.1)) else d)
      (if (l1.foldl (fun d p => if d.cols.contains p.1 then
          d.setCol p.1 (fun q => fillCell p.1 p.2 (cellV q p.1)) else d) df).cols.contains c
        then (l1.foldl (fun d p => if d.cols.contains p.1 then
          d.setCol p.1 (fun q => fillCell p.1 p.2 (cellV q p.1)) else d) df).setCol c
          (fun q => fillCell c dv (cellV q c))
        else (l1.foldl (fun d p => if d.cols.contains p.1 then
          d.setCol p.1 (fun q => fillCell p.1 p.2 (cellV q p.1)) else d)
          df))).rows[i]? = some r' := hr'
  rw [if_pos hcond] at hr2
  obtain ⟨hlt, _⟩ := List.getElem?_eq_some.mp hr
  have hlt1 : i < (l1.foldl (fun d p => if d.cols.contains p.1 then
      d.setCol p.1 (fun q => fillCell p.1 p.2 (cellV q p.1)) else d) df).rows.length := by
    rw [length_rows_fillFold]
    exact hlt
  have hr1 := List.getElem?_eq_getElem hlt1
  have hmid := fillFold_cellV_notkey l1 df i r _ hr hr1 c h1
  have hrm := setCol_rows_getElem
    (l1.foldl (fun d p => if d.cols.contains p.1 then
      d.setCol p.1 (fun q => fillCell p.1 p.2 (cellV q p.1)) else d) df)
    c (fun q => fillCell c dv (cellV q c)) i _ hr1
  have hfin := fillFold_cellV_notkey l2 _ i _ r' hrm hr2 c h2
  rw [hfin, cellV_setV_self]
  beta_reduce
  rw [hmid]

theorem fill_cell_final (df : DF) (hs : List String) (i : Nat) (rA rF : Row)
    (hrA : (addMissing df hs).rows[i]? = some rA)
    (hrF : (applyFill (addMissing df hs)).rows[i]? = some rF)
    (c : String) (dv : Value) (l1 l2 : List (String × Value))
    (hsplit : fillDefaults = l1 ++ (c, dv) :: l2)
    (h1 : ∀ p ∈ l1, p.1 ≠ c) (h2 : ∀ p ∈ l2, p.1 ≠ c)
    (hcA : (df.cols.contains c || hs.contains c) = true) :
    cellV rF c = fillCell c dv (cellV rA c) := by
  have hcA2 : (addMissing df hs).cols.contains c = true := by
    rw [cols_addMissing_contains]
    exact hcA
  have hfold : ((l1 ++ (c, dv) :: l2).foldl (fun d p => if d.cols.contains p.1 then
      d.setCol p.1 (fun q => fillCell p.1 p.2 (cellV q p.1)) else d)
      (addMissing df hs)).rows[i]? = some rF := by
    rw [← hsplit]
    exact hrF
  exact fillFold_cellV_key l1 l2 c dv (addMissing df hs) i rA rF hrA hfold hcA2 h1 h2

/-- **C6**: the defaulting pass (lines 170-207) replaces a missing (NaN) or,
for the numeric columns, unparseable value in each of the fixed columns with
that column's default — `Workout Name`→"Workout", `Set Order`→1,
`Notes`/`Workout Notes`/`RPE`→empty text, `Reps`/`Seconds`→integer 0,
`Weight (kg)`/`Distance (meters)`→float 0.0 — and a row whose `RPE` or
`Reps` column is absent altogether (but required by the target headers)
ends with empty text resp. integer 0 there. -/
theorem c6_defaulting (df : DF) (hs : List String) (i : Nat) (r : Row)
    (hr : df.rows[i]? = some r) :
    ∃ r', (applyFill (addMissing df hs)).rows[i]? = some r' ∧
      (df.cols.contains "Workout Name" = true → (cellV r "Workout Name").isna = true →
        cellV r' "Workout Name" = .str "Workout") ∧
      (df.cols.contains "Notes" = true → (cellV r "Notes").isna = true →
        cellV r' "Notes" = .str "") ∧
      (df.cols.contains "Workout Notes" = true → (cellV r "Workout Notes").isna = true →
        cellV r' "Workout Notes" = .str "") ∧
      (df.cols.contains "RPE" = true → (cellV r "RPE").isna = true →
        cellV r' "RPE" = .str "") ∧
      (df.cols.contains "Set Order" = true → toNumeric (cellV r "Set Order") = none →
        cellV r' "Set Order" = .int 1) ∧
      (df.cols.contains "Reps" = true → toNumeric (cellV r "Reps") = none →
        cellV r' "Reps" = .int 0) ∧
      (df.cols.contains "Seconds" = true → toNumeric (cellV r "Seconds") = none →
        cellV r' "Seconds" = .int 0) ∧
      (df.cols.contains "Weight (kg)" = true → toNumeric (cellV r "Weight (kg)") = none →
        cellV r' "Weight (kg)" = .float ⟨0, 0⟩) ∧
      (df.cols.contains "Distance (meters)" = true →
        toNumeric (cellV r "Distance (meters)") = none →
        cellV r' "Distance (meters)" = .float ⟨0, 0⟩) ∧
      (df.cols.contains "RPE" = false → hs.contains "RPE" = true →
        cellV r' "RPE" = .str "") ∧
      (df.cols.contains "Reps" = false → hs.contains "Reps" = true →
        cellV r' "Reps" = .int 0) := by
  obtain ⟨hlt, _⟩ := List.getElem?_eq_some.mp hr
  have hltA : i < (addMissing df hs).rows.length := by
    rw [length_rows_addMissing]
    exact hlt
  have hltF : i < (applyFill (addMissing df hs)).rows.length := by
    rw [length_rows_applyFill, length_rows_addMissing]
    exact hlt
  have hrA := List.getElem?_eq_getElem hltA
  have hrF := List.getElem?_eq_getElem hltF
  refine ⟨_, hrF, ?_, ?_, ?_, ?_, ?_, ?_, ?_, ?_, ?_, ?_, ?_⟩
  · intro hcol hna
    have hfc := fill_cell_final df hs i _ _ hrA hrF "Workout Name" (.str "Workout") []
      [("Notes", .str ""), ("Workout Notes", .str ""), ("RPE", .str ""),
       ("Weight (kg)", .float ⟨0, 0⟩), ("Reps", .int 0), ("Set Order", .int 1),
       ("Seconds", .int 0), ("Distance (meters)", .float ⟨0, 0⟩)]
      rfl (by decide) (by decide) (by rw [hcol]; simp)
    have hmidv := addMissing_cellV_incol hs df i r _ hr hrA "Workout Name" hcol
    rw [hfc, hmidv]
    unfold fillCell
    rw [if_neg (by decide), if_neg (by decide), if_pos hna]
  · intro hcol hna
    have hfc := fill_cell_final df hs i _ _ hrA hrF "Notes" (.str "")
      [("Workout Name", .str "Workout")]
      [("Workout Notes", .str ""), ("RPE", .str ""),
       ("Weight (kg)", .float ⟨0, 0⟩), ("Reps", .int 0), ("Set Order", .int 1),
       ("Seconds", .int 0), ("Distance (meters)", .float ⟨0, 0⟩)]
      rfl (by decide) (by decide) (by rw [hcol]; simp)
    have hmidv := addMissing_cellV_incol hs df i r _ hr hrA "Notes" hcol
    rw [hfc, hmidv]
    unfold fillCell
    rw [if_neg (by decide), if_neg (by decide), if_pos hna]
  · intro hcol hna
    have hfc := fill_cell_final df hs i _ _ hrA hrF "Workout Notes" (.str "")
      [("Workout Name", .str "Workout"), ("Notes", .str "")]
      [("RPE", .str ""), ("Weight (kg)", .float ⟨0, 0⟩), ("Reps", .int 0),
       ("Set Order", .int 1), ("Seconds", .int 0), ("Distance (meters)", .float ⟨0, 0⟩)]
      rfl (by decide) (by decide) (by rw [hcol]; simp)
    have hmidv := addMissing_cellV_incol hs df i r _ hr hrA "Workout Notes" hcol
    rw [hfc, hmidv]
    unfold fillCell
    rw [if_neg (by decide), if_neg (by decide), if_pos hna]
  · intro hcol hna
    have hfc := fill_cell_final df hs i _ _ hrA hrF "RPE" (.str "")
      [("Workout Name", .str "Workout"), ("Notes", .str ""), ("Workout Notes", .str "")]
      [("Weight (kg)", .float ⟨0, 0⟩), ("Reps", .int 0), ("Set Order", .int 1),
       ("Seconds", .int 0), ("Distance (meters)", .float ⟨0, 0⟩)]
      rfl (by decide) (by decide) (by rw [hcol]; simp)
    have hmidv := addMissing_cellV_incol hs df i r _ hr hrA "RPE" hcol
    rw [hfc, hmidv]
    unfold fillCell
    rw [if_neg (by decide), if_neg (by decide), if_pos hna]
  · intro hcol htn
    have hfc := fill_cell_final df hs i _ _ hrA hrF "Set Order" (.int 1)
      [("Workout Name", .str "Workout"), ("Notes", .str ""), ("Workout Notes", .str ""),
       ("RPE", .str ""), ("Weight (kg)", .float ⟨0, 0⟩), ("Reps", .int 0)]
      [("Seconds", .int 0), ("Distance (meters)", .float ⟨0, 0⟩)]
      rfl (by decide) (by decide) (by rw [hcol]; simp)
    have hmidv := addMissing_cellV_incol hs df i r _ hr hrA "Set Order" hcol
    rw [hfc, hmidv]
    unfold fillCell
    rw [if_pos (by decide), htn]
    decide
  · intro hcol htn
    have hfc := fill_cell_final df hs i _ _ hrA hrF "Reps" (.int 0)
      [("Workout Name", .str "Workout"), ("Notes", .str ""), ("Workout Notes", .str ""),
       ("RPE", .str ""), ("Weight (kg)", .float ⟨0, 0⟩)]
      [("Set Order", .int 1), ("Seconds", .int 0), ("Distance (meters)", .float ⟨0, 0⟩)]
      rfl (by decide) (by decide) (by rw [hcol]; simp)
    have hmidv := addMissing_cellV_incol hs df i r _ hr hrA "Reps" hcol
    rw [hfc, hmidv]
    unfold fillCell
    rw [if_pos (by decide), htn]
    decide
  · intro hcol htn
    have hfc := fill_cell_final df hs i _ _ hrA hrF "Seconds" (.int 0)
      [("Workout Name", .str "Workout"), ("Notes", .str ""), ("Workout Notes", .str ""),
       ("RPE", .str ""), ("Weight (kg)", .float ⟨0, 0⟩), ("Reps", .int 0),
       ("Set Order", .int 1)]
      [("Distance (meters)", .float ⟨0, 0⟩)]
      rfl (by decide) (by decide) (by rw [hcol]; simp)
    have hmidv := addMissing_cellV_incol hs df i r _ hr hrA "Seconds" hcol
    rw [hfc, hmidv]
    unfold fillCell
    rw [if_pos (by decide), htn]
    decide
  · intro hcol htn
    have hfc := fill_cell_final df hs i _ _ hrA hrF "Weight (kg)" (.float ⟨0, 0⟩)
      [("Workout Name", .str "Workout"), ("Notes", .str ""), ("Workout Notes", .str ""),
       ("RPE", .str "")]
      [("Reps", .int 0), ("Set Order", .int 1), ("Seconds", .int 0),
       ("Distance (meters)", .float ⟨0, 0⟩)]
      rfl (by decide) (by decide) (by rw [hcol]; simp)
    have hmidv := addMissing_cellV_incol hs df i r _ hr hrA "Weight (kg)" hcol
    rw [hfc, hmidv]
    unfold fillCell
    rw [if_neg (by decide), if_pos (by decide), htn]
    decide
  · intro hcol htn
    have hfc := fill_cell_final df hs i _ _ hrA hrF "Distance (meters)" (.float ⟨0, 0⟩)
      [("Workout Name", .str "Workout"), ("Notes", .str ""), ("Workout Notes", .str ""),
       ("RPE", .str ""), ("Weight (kg)", .float ⟨0, 0⟩), ("Reps", .int 0),
       ("Set Order", .int 1), ("Seconds", .int 0)]
      []
      rfl (by decide) (by decide) (by rw [hcol]; simp)
    have hmidv := addMissing_cellV_incol hs df i r _ hr hrA "Distance (meters)" hcol
    rw [hfc, hmidv]
    unfold fillCell
    rw [if_neg (by decide), if_pos (by decide), htn]
    decide
  · intro hcol hin
    have hfc := fill_cell_final df hs i _ _ hrA hrF "RPE" (.str "")
      [("Workout Name", .str "Workout"), ("Notes", .str ""), ("Workout Notes", .str "")]
      [("Weight (kg)", .float ⟨0, 0⟩), ("Reps", .int 0), ("Set Order", .int 1),
       ("Seconds", .int 0), ("Distance (meters)", .float ⟨0, 0⟩)]
      rfl (by decide) (by decide) (by rw [hcol, hin]; simp)
    have hmidv := addMissing_cellV_new hs df i r _ hr hrA "RPE" hcol hin
    rw [hfc, hmidv]
    decide
  · intro hcol hin
    have hfc := fill_cell_final df hs i _ _ hrA hrF "Reps" (.int 0)
      [("Workout Name", .str "Workout"), ("Notes", .str ""), ("Workout Notes", .str ""),
       ("RPE", .str ""), ("Weight (kg)", .float ⟨0, 0⟩)]
      [("Set Order", .int 1), ("Seconds", .int 0), ("Distance (meters)", .float ⟨0, 0⟩)]
      rfl (by decide) (by decide) (by rw [hcol, hin]; simp)
    have hmidv := addMissing_cellV_new hs df i r _ hr hrA "Reps" hcol hin
    rw [hfc, hmidv]
    decide

/-- Witness for C6: a row with NaN and unparseable cells, with `RPE` and
`Reps` columns absent but required by the target headers. -/
theorem c6_defaulting_witness :
    c6df.rows[0]? = some c6r ∧
    (∃ r', (applyFill (addMissing c6df c6hs)).rows[0]? = some r' ∧
      (c6df.cols.contains "Workout Name" = true →
        (cellV c6r "Workout Name").isna = true →
        cellV r' "Workout Name" = .str "Workout") ∧
      (c6df.cols.contains "Notes" = true → (cellV c6r "Notes").isna = true →
        cellV r' "Notes" = .str "") ∧
      (c6df.cols.contains "Workout Notes" = true →
        (cellV c6r "Workout Notes").isna = true →
        cellV r' "Workout Notes" = .str "") ∧
      (c6df.cols.contains "RPE" = true → (cellV c6r "RPE").isna = true →
        cellV r' "RPE" = .str "") ∧
      (c6df.cols.contains "Set Order" = true → toNumeric (cellV c6r "Set Order") = none →
        cellV r' "Set Order" = .int 1) ∧
      (c6df.cols.contains "Reps" = true → toNumeric (cellV c6r "Reps") = none →
        cellV r' "Reps" = .int 0) ∧
      (c6df.cols.contains "Seconds" = true → toNumeric (cellV c6r "Seconds") = none →
        cellV r' "Seconds" = .int 0) ∧
      (c6df.cols.contains "Weight (kg)" = true →
        toNumeric (cellV c6r "Weight (kg)") = none →
        cellV r' "Weight (kg)" = .float ⟨0, 0⟩) ∧
      (c6df.cols.contains "Distance (meters)" = true →
        toNumeric (cellV c6r "Distance (meters)") = none →
        cellV r' "Distance (meters)" = .float ⟨0, 0⟩) ∧
      (c6df.cols.contains "RPE" = false → c6hs.contains "RPE" = true →
        cellV r' "RPE" = .str "") ∧
      (c6df.cols.contains "Reps" = false → c6hs.contains "Reps" = true →
        cellV r' "Reps" = .int 0)) :=
  ⟨by decide, c6_defaulting c6df c6hs 0 c6r (by decide)⟩

/-! #### Target columns of the output (claim C10) -/

theorem cols_applyFill (df : DF) : (applyFill df).cols = df.cols :=
  cols_fillFold fillDefaults df

theorem cols_astypeCol {df out : DF} {c : String} {cast : Value → Option Value}
    (h : astypeCol df c cast = some out) : out.cols = df.cols := by
  unfold astypeCol at h
  split at h
  next hcond =>
    cases h
    have hc2 := hcond
    simp only [Bool.and_eq_true] at hc2
    exact cols_setCol_of_contains _ _ _ hc2.1
  next => simp at h

theorem cols_astypeStage {df out : DF} (h : astypeStage df = some out) :
    out.cols = df.cols := by
  unfold astypeStage at h
  obtain ⟨a, ha, h⟩ := option_bind_eq_some h
  obtain ⟨b, hb, h⟩ := option_bind_eq_some h
  obtain ⟨c, hc, h⟩ := option_bind_eq_some h
  obtain ⟨d, hd, h⟩ := option_bind_eq_some h
  obtain ⟨e, he, h⟩ := option_bind_eq_some h
  rw [cols_astypeCol h, cols_astypeCol he, cols_astypeCol hd, cols_astypeCol hc,
    cols_astypeCol hb, cols_astypeCol ha]

theorem checkEssential_error_shape {df : DF} {e : ConvError}
    (h : checkEssential df = .error e) :
    ∃ ms, e = ConvError.missingEssential ms := by
  unfold checkEssential at h
  split at h
  · simp at h
  · cases h
    exact ⟨_, rfl⟩

theorem stampStage_error_shape {df : DF} {e : ConvError} (h : stampStage df = .error e) :
    e = ConvError.processingError := by
  unfold stampStage at h
  split at h
  · simp at h
  · cases h
    rfl

theorem tsPhase_error_shape {a : DF} {e : ConvError} (h : timestampPhase a = .error e) :
    ∀ miss, e ≠ ConvError.missingFinalCols miss := by
  rw [timestampPhase_eq] at h
  cases hst : stampStage a with
  | error e2 =>
    rw [hst] at h
    have h2 : (Except.error e2 : Except ConvError DF) = .error e := h
    cases h2
    rw [stampStage_error_shape hst]
    intro miss hx
    exact ConvError.noConfusion hx
  | ok b =>
    rw [hst] at h
    have h2 : localizeStage b = .error e := h
    unfold localizeStage at h2
    split at h2
    · split at h2
      · cases h2
        intro miss hx
        exact ConvError.noConfusion hx
      · cases h2
        intro miss hx
        exact ConvError.noConfusion hx
    · simp at h2

/-- **C10**: the converted table's columns are exactly the externally
supplied target header list, in its order; and the missing-final-columns
abort can never fire, because the add-missing-columns loop (lines 170-181)
inserts every absent target column, so the guard of lines 221-227 is dead
code and the claim's abort conditional holds vacuously. -/
theorem c10_target_columns (df : DF) (hs : List String) (m : List (Value × Value)) :
    (∀ final, convert_gymrun_to_strong df hs m = .ok final → final.cols = hs) ∧
    (∀ miss, convert_gymrun_to_strong df hs m ≠ .error (.missingFinalCols miss)) := by
  constructor
  · intro final hconv
    cases hchk : checkEssential df with
    | error e =>
      rw [convert_checkEssential_error hchk] at hconv
      simp at hconv
    | ok a =>
      cases hph : timestampPhase a with
      | error e =>
        rw [convert_tsPhase_error hchk hph] at hconv
        simp at hconv
      | ok c =>
        rw [convert_ok_chain hchk hph] at hconv
        cases ha2 : astypeStage (applyFill (addMissing (apply_exercise_mappings
            (renameStage (cardioStage (groupStage (sortStage c)))) m "Exercise Name") hs)) with
        | none =>
          rw [finalize_astype_none ha2] at hconv
          simp at hconv
        | some j =>
          rw [finalize_astype_some ha2] at hconv
          split at hconv
          · cases hconv
            rfl
          · simp at hconv
  · intro miss hconv
    cases hchk : checkEssential df with
    | error e =>
      rw [convert_checkEssential_error hchk] at hconv
      obtain ⟨ms, hms⟩ := checkEssential_error_shape hchk
      rw [hms] at hconv
      simp at hconv
    | ok a =>
      cases hph : timestampPhase a with
      | error e =>
        rw [convert_tsPhase_error hchk hph] at hconv
        simp at hconv
        exact tsPhase_error_shape hph miss hconv
      | ok c =>
        rw [convert_ok_chain hchk hph] at hconv
        cases ha2 : astypeStage (applyFill (addMissing (apply_exercise_mappings
            (renameStage (cardioStage (groupStage (sortStage c)))) m "Exercise Name") hs)) with
        | none =>
          rw [finalize_astype_none ha2] at hconv
          simp at hconv
        | some j =>
          have hcols : j.cols = (addMissing (apply_exercise_mappings
              (renameStage (cardioStage (groupStage (sortStage c)))) m
              "Exercise Name") hs).cols := by
            rw [cols_astypeStage ha2, cols_applyFill]
          have hfil : hs.filter (fun col => !j.cols.contains col) = [] := by
            rw [List.filter_eq_nil_iff]
            intro col hcol
            have hhs : hs.contains col = true := contains_iff.mpr hcol
            rw [hcols, cols_addMissing_contains, hhs, Bool.or_true]
            decide
          have hemp : (hs.filter (fun col => !j.cols.contains col)).isEmpty = true := by
            rw [hfil]
            rfl
          rw [finalize_astype_some ha2, if_pos hemp] at hconv
          simp at hconv

/-- Witness for C10 at a concrete table and target header list. -/
theorem c10_target_columns_witness :
    (∀ final, convert_gymrun_to_strong c10df c10hs [] = .ok final →
      final.cols = c10hs) ∧
    (∀ miss, convert_gymrun_to_strong c10df c10hs [] ≠
      .error (.missingFinalCols miss)) :=
  c10_target_columns c10df c10hs []

end Gymrun
